import Mathlib

/-!
Verification development for the blockpal-server wallet-portfolio engine.

The JavaScript sources embedded here (all paths relative to the repository
root):
* `src/services/moralis/index.js` — the current Moralis service
  (`processTokenBalances`, `getWalletTokenBalances`, `clearWalletCache`,
  cache TTL configuration);
* `src/unnamed/part_000` — three superseding rewrites of the same service;
  the first rewrite (lines 46-465) and the "enhanced" rewrite
  (lines 1148-1879, with `getTokenPrice`, `fetchLiveTokenPrice` and
  `processTokenBalancesEnhanced`);
* `src/routes/tokens.js` — the wallet route assembling the HTTP response.

Conventions of the embedding:
* JavaScript numbers are modelled by `ℚ`; integer-string fields are
  modelled by their parsed numeric value.
* A nullable / possibly-absent field is `Option _`; `none` stands for
  `null` / `undefined` / an empty string (for string fields, where
  JavaScript truthiness is non-emptiness).
* For numeric fields, JavaScript truthiness of a present value `v` is
  `v ≠ 0`; the helpers below make each use explicit.
* Stateful caches are passed explicitly; network calls are parameters
  supplying the value the call would produce.
-/

namespace Blockpal

/-- A preset ("popular") token descriptor from the per-chain registry
(`config/chains`, consumed via `chainInfo.popularTokens`). -/
structure TokenDescriptor where
  address : String
  symbol : String
  name : String
  decimals : Nat
  deriving DecidableEq

/-- The per-chain registry entry (`chainConfig[chainId]`). -/
structure ChainInfo where
  symbol : String
  name : String
  popularTokens : List TokenDescriptor
  deriving DecidableEq

/-- A raw balance record as returned by the Moralis API
(`token` in the `processTokenBalances` loops). -/
structure RawToken where
  symbol : Option String
  name : Option String
  token_address : Option String
  balance : Option ℚ
  balance_formatted : Option ℚ
  decimals : Option Nat
  usd_price : Option ℚ
  usd_value : Option ℚ
  usd_price_24hr_percent_change : Option ℚ
  usd_value_24hr_usd_change : Option ℚ
  native_token : Bool
  possible_spam : Bool
  verified_contract : Option Bool
  logo : Option String
  thumbnail : Option String
  deriving DecidableEq

/-- A processed token as pushed onto `processedTokens` by every version of
the processing loop.  Fields absent from a given version's object literal
are `none` there. -/
structure ProcessedToken where
  id : String
  symbol : String
  name : String
  contractAddress : String
  decimals : Nat
  balance : ℚ
  balanceWei : ℚ
  value : ℚ
  change24h : ℚ
  usdChange24h : Option ℚ
  price : ℚ
  isNative : Bool
  logoUrl : Option String
  isPopular : Option Bool
  possibleSpam : Option Bool
  verifiedContract : Option Bool
  deriving DecidableEq

/-- An empty raw record: every field absent, every flag down.  Concrete
test records are built from it by updating fields. -/
def emptyRaw : RawToken :=
  { symbol := none, name := none, token_address := none, balance := none,
    balance_formatted := none, decimals := none, usd_price := none,
    usd_value := none, usd_price_24hr_percent_change := none,
    usd_value_24hr_usd_change := none, native_token := false,
    possible_spam := false, verified_contract := none, logo := none,
    thumbnail := none }

/-- The canonical mixed-case native sentinel address compared against in
all versions (`0xEeeeeEeeeEeEeeEeEeEeeEEEeeeeEeeeeeeeEEeE`). -/
def sentinelMixed : String := "0xEeeeeEeeeEeEeeEeEeEeeEEEeeeeEeeeeeeeEEeE"

/-- The all-lowercase native sentinel spelling additionally compared
against in the `part_000` first rewrite (lines 261-262). -/
def sentinelLower : String := "0xeeeeeeeeeeeeeeeeeeeeeeeeeeeeeeeeeeeeeeee"

/-! ## A stable comparison sort

Every version sorts `processedTokens` with `Array.prototype.sort` and a
comparator; ECMAScript guarantees the sort is stable.  `sortJS lt` models
a stable sort whose comparator reports `a` strictly before `b` exactly
when `lt a b`: each element is inserted after every earlier element it is
not strictly before. -/

/-- Insert `x` into `acc`, keeping it after every element it is not
strictly before (stability). -/
def insertStable (lt : α → α → Bool) : List α → α → List α
  | [], x => [x]
  | y :: ys, x => if lt x y then x :: y :: ys else y :: insertStable lt ys x

/-- Stable sort by the strict comparator `lt`. -/
def sortJS (lt : α → α → Bool) (l : List α) : List α :=
  l.foldl (insertStable lt) []

/-! ## Shared helpers of the processing loops -/

/-- ASCII lower-casing of one character, as `toLowerCase()` acts on the
hex addresses this code compares. -/
def lowerChar (c : Char) : Char :=
  if 'A' ≤ c ∧ c ≤ 'Z' then Char.ofNat (c.toNat + 32) else c

/-- `s.toLowerCase()` on the ASCII strings this code handles. -/
def jsToLower (s : String) : String :=
  String.mk (s.data.map lowerChar)

/-- The popular-token lookup used by every version:
`chainInfo.popularTokens.find(pt => pt.address.toLowerCase() ===
token.token_address?.toLowerCase())`.  An absent `token_address` matches
nothing (`undefined` never equals a string). -/
def findPopular (ci : ChainInfo) (addr : Option String) :
    Option TokenDescriptor :=
  match addr with
  | none => none
  | some a =>
    ci.popularTokens.find? (fun pt => jsToLower pt.address == jsToLower a)

/-- `parseInt(token.decimals) || fallback`: a present nonzero value wins,
otherwise the fallback (JavaScript `0` and `NaN` are falsy). -/
def decimalsOr (d : Option Nat) (fallback : Nat) : Nat :=
  match d with
  | some n => if n ≠ 0 then n else fallback
  | none => fallback

/-- `popularToken ? popularToken.decimals : 18`. -/
def popularDecimals (pt : Option TokenDescriptor) : Nat :=
  match pt with
  | some p => p.decimals
  | none => 18

/-- `token.symbol || (popularToken ? popularToken.symbol : dflt)` and its
`name` analogue: string truthiness is presence in this model. -/
def strOr (s : Option String) (dflt : String) : String :=
  match s with
  | some v => v
  | none => dflt

/-- `token.logo || token.thumbnail || dflt`. -/
def logoOr (t : RawToken) (dflt : String) : Option String :=
  match t.logo with
  | some l => some l
  | none =>
    match t.thumbnail with
    | some th => some th
    | none => some dflt

/-- `getNativeTokenLogo(symbol)` (identical in every version). -/
def getNativeTokenLogo (symbol : String) : String :=
  if symbol == "ETH" then "https://cdn.moralis.io/eth/0x.png"
  else if symbol == "BNB" then
    "https://tokens.1inch.io/0xbb4cdb9cbd36b01bd1cbaebf2de08d9173bc095c.png"
  else if symbol == "MATIC" then
    "https://tokens.1inch.io/0x0000000000000000000000000000000000001010_1.png"
  else if symbol == "AVAX" then
    "https://tokens.1inch.io/0xb31f66aa3c1e785363f0875a1b74e27b85fd66c7.png"
  else "https://cdn.moralis.io/eth/0x.png"

/-- `getTokenLogo(symbol)` (identical in every version). -/
def getTokenLogo : String := "https://tokens.1inch.io/generic.png"

/-! ## `processTokenBalances` — `src/unnamed/part_000` first rewrite
(lines 213-465) -/

/-- Balance parsing of the first rewrite (lines 239-252): prefer the
formatted balance; otherwise divide the raw balance by `10^decimals`
when `token.decimals` is truthy, else by `10^18`. -/
def parsedBalanceP0 (t : RawToken) : ℚ :=
  match t.balance_formatted with
  | some bf => bf
  | none =>
    match t.balance with
    | some raw =>
      match t.decimals with
      | some d => if d ≠ 0 then raw / (10 : ℚ) ^ d else raw / (10 : ℚ) ^ 18
      | none => raw / (10 : ℚ) ^ 18
    | none => 0

/-- Native-token test of the first rewrite (lines 257-263): the
`native_token` flag, the mixed-case sentinel, the all-lowercase sentinel,
or no contract address at all. -/
def isNativeTokenP0 (t : RawToken) : Bool :=
  t.native_token || t.token_address == some sentinelMixed
    || t.token_address == some sentinelLower || t.token_address == none

/-- Price/value parsing of the first rewrite (lines 299-315).  Returns
`(price, value)`.  `value = parseFloat(token.usd_value) || value` keeps
the previous value when the provider value is `0`. -/
def priceValueP0 (t : RawToken) (balance : ℚ) : ℚ × ℚ :=
  let price0 : ℚ := match t.usd_price with | some p => p | none => 0
  let value0 : ℚ :=
    match t.usd_price with | some p => balance * p | none => 0
  match t.usd_value with
  | some v =>
    let value1 := if v ≠ 0 then v else value0
    let price1 := if 0 < balance ∧ 0 < value1 then value1 / balance else price0
    (price1, value1)
  | none => (price0, value0)

/-- The native `ProcessedToken` of the first rewrite (lines 326-345). -/
def mkNativeP0 (ci : ChainInfo) (cid : String) (t : RawToken)
    (balance price value change24h : ℚ) : ProcessedToken :=
  { id := "native-" ++ cid,
    symbol := strOr t.symbol ci.symbol,
    name := strOr t.name ci.name,
    contractAddress := "native",
    decimals := decimalsOr t.decimals 18,
    balance := balance,
    balanceWei := (t.balance).getD 0,
    value := value,
    change24h := change24h,
    usdChange24h := none,
    price := price,
    isNative := true,
    logoUrl := logoOr t (getNativeTokenLogo ci.symbol),
    isPopular := some true,
    possibleSpam := some false,
    verifiedContract := some (t.verified_contract ≠ some false) }

/-- The ERC-20 `ProcessedToken` of the first rewrite (lines 367-387). -/
def mkErc20P0 (ci : ChainInfo) (cid : String) (t : RawToken) (addr : String)
    (balance price value change24h : ℚ) : ProcessedToken :=
  let popularToken := findPopular ci (some addr)
  { id := jsToLower addr ++ "-" ++ cid,
    symbol := strOr t.symbol (match popularToken with
      | some p => p.symbol | none => "UNKNOWN"),
    name := strOr t.name (match popularToken with
      | some p => p.name | none => "Unknown Token"),
    contractAddress := jsToLower addr,
    decimals := decimalsOr t.decimals (popularDecimals popularToken),
    balance := balance,
    balanceWei := (t.balance).getD 0,
    value := value,
    change24h := change24h,
    usdChange24h := none,
    price := price,
    isNative := false,
    logoUrl := logoOr t getTokenLogo,
    isPopular := some popularToken.isSome,
    possibleSpam := some t.possible_spam,
    verifiedContract := some (t.verified_contract ≠ some false) }

/-- The "unknown" `ProcessedToken` of the first rewrite (lines 401-418),
for a record with no contract address (unreachable after the native test,
but present in the source). -/
def mkUnknownP0 (cid : String) (t : RawToken)
    (balance price value change24h : ℚ) : ProcessedToken :=
  { id := "unknown-" ++ strOr t.symbol "" ++ "-" ++ cid,
    symbol := strOr t.symbol "UNKNOWN",
    name := strOr t.name "Unknown Token",
    contractAddress := "unknown",
    decimals := decimalsOr t.decimals 18,
    balance := balance,
    balanceWei := (t.balance).getD 0,
    value := value,
    change24h := change24h,
    usdChange24h := none,
    price := price,
    isNative := false,
    logoUrl := logoOr t getTokenLogo,
    isPopular := some false,
    possibleSpam := some t.possible_spam,
    verifiedContract := some (t.verified_contract ≠ some false) }

/-- The per-record loop of the first rewrite (lines 224-434), before the
final sort.  The two `continue` filters: a zero-balance filter that spares
native and popular tokens (lines 266-284; note it only fires at balance
exactly `0`), and a spam filter that only fires below balance `0.001` for
non-native, non-popular records (lines 287-297). -/
def processLoopP0 (ci : ChainInfo) (cid : String) :
    List RawToken → List ProcessedToken
  | [] => []
  | t :: rest =>
    let balance := parsedBalanceP0 t
    let isNat := isNativeTokenP0 t
    if balance ≤ 0 ∧ isNat = false
        ∧ (findPopular ci t.token_address).isNone ∧ balance = 0 then
      processLoopP0 ci cid rest
    else if t.possible_spam = true ∧ balance < 1 / 1000 ∧ isNat = false
        ∧ (findPopular ci t.token_address).isNone then
      processLoopP0 ci cid rest
    else
      let pv := priceValueP0 t balance
      let change24h : ℚ := (t.usd_price_24hr_percent_change).getD 0
      if isNat then
        mkNativeP0 ci cid t balance pv.1 pv.2 change24h
          :: processLoopP0 ci cid rest
      else
        match t.token_address with
        | some addr =>
          mkErc20P0 ci cid t addr balance pv.1 pv.2 change24h
            :: processLoopP0 ci cid rest
        | none =>
          mkUnknownP0 cid t balance pv.1 pv.2 change24h
            :: processLoopP0 ci cid rest

/-- Comparator of the first rewrite (lines 437-442): value descending,
ties broken by balance descending.  `ltLexP0 a b` holds when `a` sorts
strictly before `b`. -/
def ltLexP0 (a b : ProcessedToken) : Bool :=
  decide (b.value < a.value ∨ (b.value = a.value ∧ b.balance < a.balance))

/-- `processTokenBalances` of the `part_000` first rewrite: the loop
followed by the two-level sort. -/
def processTokenBalancesP0 (input : List RawToken) (ci : ChainInfo)
    (cid : String) : List ProcessedToken :=
  sortJS ltLexP0 (processLoopP0 ci cid input)

/-! ## `processTokenBalances` — `src/services/moralis/index.js`
(lines 193-337) -/

/-- Balance parsing of the current service (line 217):
`parseFloat(token.balance_formatted || "0")`. -/
def parsedBalanceSvc (t : RawToken) : ℚ :=
  (t.balance_formatted).getD 0

/-- The native `ProcessedToken` of the current service (lines 248-264).
The object literal has no `isPopular`, `possibleSpam` or
`verifiedContract` fields, and hard-codes 18 decimals. -/
def mkNativeSvc (ci : ChainInfo) (cid : String) (t : RawToken)
    (balance : ℚ) : ProcessedToken :=
  { id := "native-" ++ cid,
    symbol := strOr t.symbol ci.symbol,
    name := strOr t.name ci.name,
    contractAddress := "native",
    decimals := 18,
    balance := balance,
    balanceWei := (t.balance).getD 0,
    value := (t.usd_value).getD 0,
    change24h := (t.usd_price_24hr_percent_change).getD 0,
    usdChange24h := none,
    price := (t.usd_price).getD 0,
    isNative := true,
    logoUrl := logoOr t (getNativeTokenLogo ci.symbol),
    isPopular := none,
    possibleSpam := none,
    verifiedContract := none }

/-- The ERC-20 `ProcessedToken` of the current service (lines 287-307).
Note `verifiedContract: token.verified_contract || false` (truthiness),
unlike the `!== false` of the rewrites. -/
def mkErc20Svc (ci : ChainInfo) (cid : String) (t : RawToken)
    (addr : String) (balance : ℚ) : ProcessedToken :=
  let popularToken := findPopular ci (some addr)
  { id := jsToLower addr ++ "-" ++ cid,
    symbol := strOr t.symbol (match popularToken with
      | some p => p.symbol | none => "UNKNOWN"),
    name := strOr t.name (match popularToken with
      | some p => p.name | none => "Unknown Token"),
    contractAddress := jsToLower addr,
    decimals := decimalsOr t.decimals (popularDecimals popularToken),
    balance := balance,
    balanceWei := (t.balance).getD 0,
    value := (t.usd_value).getD 0,
    change24h := (t.usd_price_24hr_percent_change).getD 0,
    usdChange24h := none,
    price := (t.usd_price).getD 0,
    isNative := false,
    logoUrl := logoOr t getTokenLogo,
    isPopular := some popularToken.isSome,
    possibleSpam := some t.possible_spam,
    verifiedContract := some (t.verified_contract = some true) }

/-- The per-record loop of the current service (lines 203-323): skip at
balance ≤ 0 (line 221, no exception for native or preset); skip spam
unless popular (lines 229-241); then the native test — `native_token` or
the exact mixed-case sentinel only (lines 244-247); a record with no
contract address and no native flag is pushed by neither branch. -/
def processLoopSvc (ci : ChainInfo) (cid : String) :
    List RawToken → List ProcessedToken
  | [] => []
  | t :: rest =>
    let balance := parsedBalanceSvc t
    if balance ≤ 0 then
      processLoopSvc ci cid rest
    else if t.possible_spam = true
        ∧ (findPopular ci t.token_address).isNone then
      processLoopSvc ci cid rest
    else if t.native_token || t.token_address == some sentinelMixed then
      mkNativeSvc ci cid t balance :: processLoopSvc ci cid rest
    else
      match t.token_address with
      | some addr => mkErc20Svc ci cid t addr balance
          :: processLoopSvc ci cid rest
      | none => processLoopSvc ci cid rest

/-- Comparator of the current service (line 326): value descending only,
no tie-break. -/
def ltValueOnly (a b : ProcessedToken) : Bool :=
  decide (b.value < a.value)

/-- `processTokenBalances` of `src/services/moralis/index.js`: the loop
followed by the single-level sort. -/
def processTokenBalancesSvc (input : List RawToken) (ci : ChainInfo)
    (cid : String) : List ProcessedToken :=
  sortJS ltValueOnly (processLoopSvc ci cid input)

/-! ## The price resolver — `src/unnamed/part_000` enhanced rewrite
(lines 1167-1439) -/

/-- The hard-coded fallback price table (`this.fallbackPrices`,
lines 1175-1203). -/
def fallbackPrices : List (String × ℚ) :=
  [("ETH", 3200), ("WETH", 3200), ("BTC", 45000), ("WBTC", 45000),
   ("USDT", 1), ("USDC", 1), ("DAI", 1), ("BUSD", 1),
   ("MATIC", 85 / 100), ("BNB", 310), ("AVAX", 25), ("SOL", 98),
   ("DOT", 65 / 10), ("ADA", 45 / 100), ("LINK", 145 / 10),
   ("UNI", 128 / 10), ("AAVE", 95), ("SUSHI", 12 / 10),
   ("CRV", 85 / 100), ("COMP", 45), ("MKR", 1850), ("YFI", 7200),
   ("SNX", 21 / 10), ("1INCH", 32 / 100), ("BAL", 34 / 10),
   ("LDO", 18 / 10), ("FRAX", 1)]

/-- Association-list lookup modelling JavaScript object indexing. -/
def assocFind (m : List (String × ℚ)) (s : String) : Option ℚ :=
  (m.find? (fun kv => kv.1 == s)).map (fun kv => kv.2)

/-- Indexing with a possibly-undefined key (`obj[symbol]` where `symbol`
may be `undefined`). -/
def optEntry (m : List (String × ℚ)) : Option String → Option ℚ
  | none => none
  | some s => assocFind m s

/-- The price caches of the enhanced rewrite.  `tokenPrices` is the
`"token_prices"` entry of `priceCache` (`none` when absent or expired);
`livePrices` holds the unexpired `live_price_<symbol>` entries. -/
structure PriceState where
  tokenPrices : Option (List (String × ℚ))
  livePrices : List (String × ℚ)
  deriving DecidableEq

/-- `fetchLiveTokenPrice` (lines 1409-1439): return the cached live price
when truthy; otherwise the CoinGecko search-then-price result `live`,
kept only when strictly positive; any failure yields `null`. -/
def fetchLiveTokenPrice (st : PriceState)
    (live : Option String → Option ℚ) (symbol : Option String) : Option ℚ :=
  match optEntry st.livePrices symbol with
  | some c =>
    if c ≠ 0 then some c
    else
      match live symbol with
      | some p => if 0 < p then some p else none
      | none => none
  | none =>
    match live symbol with
    | some p => if 0 < p then some p else none
    | none => none

/-- Tier 1 (lines 1358-1362): the Moralis price when truthy and inside
`(0, 1000000)`. -/
def priceTier1 (moralisPrice : Option ℚ) : Option ℚ :=
  match moralisPrice with
  | some p => if 0 < p ∧ p < 1000000 then some p else none
  | none => none

/-- Tier 2 (lines 1364-1371): `moralisValue / balance` when both are
truthy and positive and the quotient is inside `(0, 1000000)`. -/
def priceTier2 (moralisValue : Option ℚ) (balance : ℚ) : Option ℚ :=
  match moralisValue with
  | some v =>
    if 0 < v ∧ 0 < balance then
      let c := v / balance
      if 0 < c ∧ c < 1000000 then some c else none
    else none
  | none => none

/-- Tier 3 (lines 1373-1380): the cached `"token_prices"` entry for the
symbol, when the map is present and the entry truthy. -/
def priceTier3 (st : PriceState) (symbol : Option String) : Option ℚ :=
  match st.tokenPrices with
  | some m =>
    match optEntry m symbol with
    | some c => if c ≠ 0 then some c else none
    | none => none
  | none => none

/-- Tier 4 (lines 1382-1388): the hard-coded fallback entry, when
truthy. -/
def priceTier4 (symbol : Option String) : Option ℚ :=
  match optEntry fallbackPrices symbol with
  | some f => if f ≠ 0 then some f else none
  | none => none

/-- Tier 5 (lines 1390-1395): the live lookup, kept when truthy and
positive. -/
def priceTier5 (st : PriceState) (live : Option String → Option ℚ)
    (symbol : Option String) : Option ℚ :=
  match fetchLiveTokenPrice st live symbol with
  | some lp => if 0 < lp then some lp else none
  | none => none

/-- `getTokenPrice` (lines 1351-1404): the five tiers in order, `0` when
every tier fails. -/
def getTokenPrice (st : PriceState) (live : Option String → Option ℚ)
    (symbol : Option String) (moralisPrice moralisValue : Option ℚ)
    (balance : ℚ) : ℚ :=
  match priceTier1 moralisPrice with
  | some p => p
  | none =>
  match priceTier2 moralisValue balance with
  | some c => c
  | none =>
  match priceTier3 st symbol with
  | some c => c
  | none =>
  match priceTier4 symbol with
  | some f => f
  | none =>
  match priceTier5 st live symbol with
  | some lp => lp
  | none => 0

/-- Tiers 4-6 of claim C1's wording: the static fallback entry whenever
present; else the result of the on-demand lookup; else `0`. -/
def resolvePriceClaimTail (st : PriceState)
    (live : Option String → Option ℚ) (symbol : Option String) : ℚ :=
  match optEntry fallbackPrices symbol with
  | some f => f
  | none =>
    match fetchLiveTokenPrice st live symbol with
    | some p => p
    | none => 0

/-- The resolver exactly as claim C1 words it: provider price if strictly
between 0 and 1000000; else the value/balance quotient under the same
bounds when both are positive; else the cached external price for the
symbol whenever present and unexpired; then the tiers of
`resolvePriceClaimTail`.  Stated from the claim, to be compared with
`getTokenPrice` above. -/
def resolvePriceClaim (st : PriceState) (live : Option String → Option ℚ)
    (symbol : Option String) (moralisPrice moralisValue : Option ℚ)
    (balance : ℚ) : ℚ :=
  match priceTier1 moralisPrice with
  | some p => p
  | none =>
  match priceTier2 moralisValue balance with
  | some c => c
  | none =>
  match st.tokenPrices with
  | some m =>
    (match optEntry m symbol with
     | some c => c
     | none => resolvePriceClaimTail st live symbol)
  | none => resolvePriceClaimTail st live symbol

/-! ## `processTokenBalancesEnhanced` — `src/unnamed/part_000` enhanced
rewrite (lines 1541-1742) -/

/-- Numeric truthiness conversion for
`token.usd_price ? parseFloat(token.usd_price) : null` (lines 1585-1590). -/
def truthyNum (x : Option ℚ) : Option ℚ :=
  match x with
  | some v => if v ≠ 0 then some v else none
  | none => none

/-- Balance parsing of the enhanced rewrite (lines 1570-1577). -/
def parsedBalanceEnh (t : RawToken) : ℚ :=
  match t.balance_formatted with
  | some bf => bf
  | none =>
    match t.balance with
    | some raw => raw / (10 : ℚ) ^ decimalsOr t.decimals 18
    | none => 0

/-- Native-token test of the enhanced rewrite (lines 1631-1635): flag,
mixed-case sentinel, or no contract address. -/
def isNativeTokenEnh (t : RawToken) : Bool :=
  t.native_token || t.token_address == some sentinelMixed
    || t.token_address == none

/-- The native `ProcessedToken` of the enhanced rewrite (lines 1638-1658). -/
def mkNativeEnh (ci : ChainInfo) (cid : String) (t : RawToken)
    (balance price value change24h usdChange24h : ℚ) : ProcessedToken :=
  { id := "native-" ++ cid,
    symbol := strOr t.symbol ci.symbol,
    name := strOr t.name ci.name,
    contractAddress := "native",
    decimals := decimalsOr t.decimals 18,
    balance := balance,
    balanceWei := (t.balance).getD 0,
    value := value,
    change24h := change24h,
    usdChange24h := some usdChange24h,
    price := price,
    isNative := true,
    logoUrl := logoOr t (getNativeTokenLogo ci.symbol),
    isPopular := some true,
    possibleSpam := some false,
    verifiedContract := some true }

/-- The ERC-20 `ProcessedToken` of the enhanced rewrite
(lines 1674-1697). -/
def mkErc20Enh (ci : ChainInfo) (cid : String) (t : RawToken)
    (addr : String) (balance price value change24h usdChange24h : ℚ) :
    ProcessedToken :=
  let popularToken := findPopular ci (some addr)
  { id := jsToLower addr ++ "-" ++ cid,
    symbol := strOr t.symbol (match popularToken with
      | some p => p.symbol | none => "UNKNOWN"),
    name := strOr t.name (match popularToken with
      | some p => p.name | none => "Unknown Token"),
    contractAddress := jsToLower addr,
    decimals := decimalsOr t.decimals (popularDecimals popularToken),
    balance := balance,
    balanceWei := (t.balance).getD 0,
    value := value,
    change24h := change24h,
    usdChange24h := some usdChange24h,
    price := price,
    isNative := false,
    logoUrl := logoOr t getTokenLogo,
    isPopular := some popularToken.isSome,
    possibleSpam := some t.possible_spam,
    verifiedContract := some (t.verified_contract ≠ some false) }

/-- The per-record loop of the enhanced rewrite (lines 1554-1715): skip
at balance ≤ 0 (lines 1579-1582, no exceptions); resolve the price
through `getTokenPrice` and set `value = balance * price`
(lines 1598-1604); no spam filter at all in this rewrite; a record with
no contract address and no native flag is pushed by neither branch. -/
def processLoopEnh (st : PriceState) (live : Option String → Option ℚ)
    (ci : ChainInfo) (cid : String) : List RawToken → List ProcessedToken
  | [] => []
  | t :: rest =>
    let balance := parsedBalanceEnh t
    if balance ≤ 0 then
      processLoopEnh st live ci cid rest
    else
      let moralisPrice := truthyNum t.usd_price
      let moralisValue := truthyNum t.usd_value
      let price := getTokenPrice st live t.symbol moralisPrice moralisValue
        balance
      let value := balance * price
      let change24h : ℚ := (t.usd_price_24hr_percent_change).getD 0
      let usdChange24h : ℚ := (t.usd_value_24hr_usd_change).getD 0
      if isNativeTokenEnh t then
        mkNativeEnh ci cid t balance price value change24h usdChange24h
          :: processLoopEnh st live ci cid rest
      else
        match t.token_address with
        | some addr =>
          mkErc20Enh ci cid t addr balance price value change24h usdChange24h
            :: processLoopEnh st live ci cid rest
        | none => processLoopEnh st live ci cid rest

/-- `processTokenBalancesEnhanced`: the loop followed by the single-level
sort (line 1718). -/
def processTokenBalancesEnhanced (st : PriceState)
    (live : Option String → Option ℚ) (input : List RawToken)
    (ci : ChainInfo) (cid : String) : List ProcessedToken :=
  sortJS ltValueOnly (processLoopEnh st live ci cid input)

/-! ## `getWalletTokenBalances` and the snapshot cache -/

/-- Failure classes of the Moralis provider call. -/
inductive UpstreamErr
  | network
  | auth
  | rateLimited
  | other
  deriving DecidableEq

/-- Errors a service call can surface to its caller. -/
inductive SvcError
  | unsupportedChain
  | upstream (e : UpstreamErr)
  deriving DecidableEq

/-- The possible shapes of a successful provider response, as probed by
the response parsers (`result`, `raw.result`, `raw` as a bare array, the
response itself as an array). -/
structure UpstreamOk where
  result : Option (List RawToken)
  rawResult : Option (List RawToken)
  rawArray : Option (List RawToken)
  selfArray : Option (List RawToken)

/-- Response parsing of the `part_000` first rewrite (lines 122-140):
four shapes in priority order, else the empty list. -/
def parseTokensP0 (r : UpstreamOk) : List RawToken :=
  match r.result with
  | some l => l
  | none =>
    match r.rawResult with
    | some l => l
    | none =>
      match r.rawArray with
      | some l => l
      | none =>
        match r.selfArray with
        | some l => l
        | none => []

/-- Response parsing of the current service (line 129):
`allTokensResponse.raw?.result || []`. -/
def parseTokensSvc (r : UpstreamOk) : List RawToken :=
  (r.rawResult).getD []

/-- The zero-balance native token pushed by the first rewrite when an
empty response processed to an empty list (lines 159-175). -/
def zeroNativeToken (ci : ChainInfo) (cid : String) : ProcessedToken :=
  { id := "native-" ++ cid,
    symbol := ci.symbol,
    name := ci.name,
    contractAddress := "native",
    decimals := 18,
    balance := 0,
    balanceWei := 0,
    value := 0,
    change24h := 0,
    usdChange24h := none,
    price := 0,
    isNative := true,
    logoUrl := some (getNativeTokenLogo ci.symbol),
    isPopular := some true,
    possibleSpam := some false,
    verifiedContract := some true }

/-- Outcome of one `getWalletTokenBalances` call: the value returned (or
error raised), whether the provider was invoked, and the snapshot-cache
entry for this wallet/chain key afterwards. -/
structure CallOutcome (ε ρ : Type) where
  result : Except ε ρ
  providerCalled : Bool
  cacheAfter : Option (List ProcessedToken)

/-- `getWalletTokenBalances` of `src/services/moralis/index.js`
(lines 47-188).  A truthy cached entry with caching enabled is returned
as-is (lines 51-59); an unknown chain throws (lines 65-68); a provider
failure is logged and re-thrown by the outer catch (lines 118-126 and
179-187); otherwise the parsed records are processed and cached
(lines 129-178). -/
def getWalletTokenBalancesSvc (cached : Option (List ProcessedToken))
    (enableCache : Bool) (chainInfo : Option ChainInfo)
    (upstream : Except UpstreamErr UpstreamOk) (cid : String) :
    CallOutcome SvcError (List ProcessedToken) :=
  match cached, enableCache with
  | some c, true =>
    { result := .ok c, providerCalled := false, cacheAfter := some c }
  | _, _ =>
    match chainInfo with
    | none =>
      { result := .error .unsupportedChain, providerCalled := false,
        cacheAfter := cached }
    | some ci =>
      match upstream with
      | .error e =>
        { result := .error (.upstream e), providerCalled := true,
          cacheAfter := cached }
      | .ok resp =>
        let tokens := processTokenBalancesSvc (parseTokensSvc resp) ci cid
        { result := .ok tokens, providerCalled := true,
          cacheAfter := some tokens }

/-- `getWalletTokenBalances` of the `part_000` first rewrite
(lines 46-208).  Identical cache-hit path; but its outer catch returns an
empty array instead of re-throwing (lines 196-207), and an empty parsed
response is processed and back-filled with a zero-balance native token
(lines 146-184). -/
def getWalletTokenBalancesP0 (cached : Option (List ProcessedToken))
    (enableCache : Bool) (chainInfo : Option ChainInfo)
    (upstream : Except UpstreamErr UpstreamOk) (cid : String) :
    CallOutcome SvcError (List ProcessedToken) :=
  match cached, enableCache with
  | some c, true =>
    { result := .ok c, providerCalled := false, cacheAfter := some c }
  | _, _ =>
    match chainInfo with
    | none =>
      { result := .ok [], providerCalled := false, cacheAfter := cached }
    | some ci =>
      match upstream with
      | .error _ =>
        { result := .ok [], providerCalled := true, cacheAfter := cached }
      | .ok resp =>
        let allTokens := parseTokensP0 resp
        if allTokens.isEmpty then
          let tokens := processTokenBalancesP0 [] ci cid
          let tokens2 :=
            if tokens.isEmpty then [zeroNativeToken ci cid] else tokens
          { result := .ok tokens2, providerCalled := true,
            cacheAfter := some tokens2 }
        else
          let tokens := processTokenBalancesP0 allTokens ci cid
          { result := .ok tokens, providerCalled := true,
            cacheAfter := some tokens }

/-- The snapshot-cache TTL (`src/services/moralis/index.js` lines 8-11):
`parseInt(process.env.CACHE_TTL_SECONDS) || 300`.  The argument is the
parsed environment value (`none` for unset or unparseable). -/
def cacheTTLSeconds (env : Option Nat) : Nat :=
  match env with
  | some n => if n ≠ 0 then n else 300
  | none => 300

/-! ## `clearWalletCache` — `src/services/moralis/index.js`
(lines 392-401) -/

/-- `needle.isPrefixOf`-style check on character lists, written out. -/
def isPre : List Char → List Char → Bool
  | [], _ => true
  | _ :: _, [] => false
  | a :: as, b :: bs => a == b && isPre as bs

/-- `haystack.includes(needle)` on character lists. -/
def hasSubstr (needle : List Char) : List Char → Bool
  | [] => isPre needle []
  | c :: t => isPre needle (c :: t) || hasSubstr needle t

/-- `key.includes(walletAddress)` (line 394). -/
def strContains (key needle : String) : Bool :=
  hasSubstr needle.data key.data

/-- The cache key built at line 51:
`wallet_tokens_${walletAddress}_${chainId}` — the address exactly as
passed, not lower-cased. -/
def mkCacheKey (walletAddress chainId : String) : String :=
  "wallet_tokens_" ++ walletAddress ++ "_" ++ chainId

/-- `cache.del(key)`: drop the entry with that exact key. -/
def cacheDel {V : Type} (m : List (String × V)) (k : String) :
    List (String × V) :=
  m.filter (fun kv => kv.1 ≠ k)

/-- `clearWalletCache(walletAddress)` (lines 392-401): collect every key
containing the address, then delete each. -/
def clearWalletCache {V : Type} (walletAddress : String)
    (m : List (String × V)) : List (String × V) :=
  let keys := m.map (fun kv => kv.1)
  let walletKeys := keys.filter (fun k => strContains k walletAddress)
  walletKeys.foldl cacheDel m

/-! ## The wallet route — `src/routes/tokens.js` (lines 25-199)

The route consumes a service result shaped
`{displayedTokens, hiddenTokens, totalValue, total24hrChange, chainName}`.
No service under `src/` produces that shape (`routes/tokens.js` and the
debug routes only consume it); its producer — the "wallet-balance.js"
variant of `getWalletTokenBalances` — is missing from the sources. -/

/-- The service result consumed by the route. -/
structure WalletBalanceResult where
  displayedTokens : List RawToken
  hiddenTokens : List RawToken
  totalValue : ℚ
  total24hrChange : ℚ
  chainName : String
  deriving DecidableEq

/-- Modelled from the spec: the missing "wallet-balance.js" producer of
`WalletBalanceResult`.  Its `totalValue` is the sum of the provider USD
values of the displayed (preset) tokens — the snapshot total of the
default, preset-only view (spec §3 `PortfolioSnapshot`, §4.5); the
debug route `src/unnamed/part_006` lines 178-184 computes "total if
showing all" as `totalValue` plus the hidden tokens' `usd_value` sum,
confirming that `totalValue` covers the displayed set only.  The producer
takes no `includeHidden` argument (see its call sites,
`src/routes/tokens.js` line 66 and `src/unnamed/part_006` line 31). -/
def WalletBalanceResultWF (r : WalletBalanceResult) : Prop :=
  r.totalValue = (r.displayedTokens.map (fun t => (t.usd_value).getD 0)).sum

/-- `processToken` of the route (lines 97-142). -/
def routeProcessToken (chainId : String) (t : RawToken) : ProcessedToken :=
  let balance : ℚ :=
    match t.balance_formatted with
    | some bf => bf
    | none =>
      match t.balance with
      | some raw => raw / (10 : ℚ) ^ decimalsOr t.decimals 18
      | none => 0
  let usdValue : ℚ := (t.usd_value).getD 0
  let usdPrice : ℚ := (t.usd_price).getD 0
  let change24h : ℚ := (t.usd_value_24hr_usd_change).getD 0
  let priceChange24h : ℚ := (t.usd_price_24hr_percent_change).getD 0
  let isNativeToken : Bool :=
    t.native_token || t.token_address == some sentinelMixed
      || t.token_address == none
  { id := if isNativeToken then "native-" ++ chainId
      else jsToLower (t.token_address.getD "") ++ "-" ++ chainId,
    symbol := strOr t.symbol "UNKNOWN",
    name := strOr t.name "Unknown Token",
    contractAddress := if isNativeToken then "native"
      else jsToLower (t.token_address.getD ""),
    decimals := decimalsOr t.decimals 18,
    balance := balance,
    balanceWei := (t.balance).getD 0,
    value := usdValue,
    change24h := priceChange24h,
    usdChange24h := some change24h,
    price := usdPrice,
    isNative := isNativeToken,
    logoUrl := (match t.logo with
      | some l => some l
      | none => t.thumbnail),
    isPopular := some true,
    possibleSpam := some t.possible_spam,
    verifiedContract := some (t.verified_contract ≠ some false) }

/-- The route's HTTP response payload (lines 159-174, the fields the
claims concern). -/
structure RouteResponse where
  tokens : List ProcessedToken
  totalValue : ℚ
  total24hrChange : ℚ
  presetTokenCount : Nat
  hiddenTokenCount : Nat
  showingHidden : Bool
  deriving DecidableEq

/-- Response assembly of `GET /api/tokens/wallet/:address`
(lines 144-174): map both sets through `processToken`; return the
displayed set, extended by the hidden set when `showHidden` is set
(lines 150-154); re-sort by value descending (line 157); report
`result.totalValue` unchanged (line 165). -/
def routeWalletResponse (chainId : String) (r : WalletBalanceResult)
    (showHidden : Bool) : RouteResponse :=
  let displayedTokens := r.displayedTokens.map (routeProcessToken chainId)
  let hiddenTokens := r.hiddenTokens.map (routeProcessToken chainId)
  let tokensToReturn :=
    if showHidden then displayedTokens ++ hiddenTokens else displayedTokens
  { tokens := sortJS ltValueOnly tokensToReturn,
    totalValue := r.totalValue,
    total24hrChange := r.total24hrChange,
    presetTokenCount := displayedTokens.length,
    hiddenTokenCount := hiddenTokens.length,
    showingHidden := showHidden }

/-- Sum of the `value` field over a token list. -/
def tokenValueSum (l : List ProcessedToken) : ℚ :=
  (l.map (fun t => t.value)).sum

/-! ## Address well-formedness (for the cache-key reasoning)

The route layer only lets addresses matching `^0x[a-fA-F0-9]{40}$` reach
the service (`src/routes/tokens.js` line 31), and chain ids are rendered
as decimal digit strings. -/

/-- A hexadecimal digit as matched by `[a-fA-F0-9]`. -/
def isHexDigit (c : Char) : Bool :=
  ("0123456789abcdefABCDEF".data).contains c

/-- A wallet address as validated by the route regex:
`0x` followed by exactly 40 hex digits. -/
def validWalletAddr (a : String) : Prop :=
  a.data.take 2 = ['0', 'x'] ∧ (a.data.drop 2).length = 40
    ∧ ∀ c ∈ a.data.drop 2, isHexDigit c = true

/-! ## Concrete fixtures for witnesses and counterexamples -/

/-- A chain registry entry with no preset tokens. -/
def ci0 : ChainInfo :=
  { symbol := "ETH", name := "Ethereum", popularTokens := [] }

/-- An external-lookup stub that always fails. -/
def liveNone : Option String → Option ℚ := fun _ => none

/-- A price-cache state with one cached external price and one cached
live price. -/
def pst0 : PriceState :=
  { tokenPrices := some [("ETH", 3000)], livePrices := [("AAA", 2)] }

/-- A native record with zero formatted balance. -/
def recNative0 : RawToken :=
  { emptyRaw with native_token := true, balance_formatted := some 0 }

/-- A native record carrying independent provider price and value
(`usd_value ≠ balance × usd_price`). -/
def recNat : RawToken :=
  { emptyRaw with
    native_token := true, balance_formatted := some 2,
    usd_price := some 3, usd_value := some 10 }

/-- A native record priced through the cached external price. -/
def recEnh : RawToken :=
  { emptyRaw with
    native_token := true, balance_formatted := some 1,
    symbol := some "ETH" }

/-- A spam-flagged, non-preset, non-native record with balance 1. -/
def spamRec : RawToken :=
  { emptyRaw with
    token_address := some "0xdead",
    balance_formatted := some 1, possible_spam := true }

/-- A spam-flagged, non-preset, non-native record with balance 1/2000
(below the 0.001 threshold of the `part_000` spam filter). -/
def spamRecTiny : RawToken :=
  { emptyRaw with
    token_address := some "0xdead",
    balance_formatted := some (1 / 2000), possible_spam := true }

/-- The all-uppercase spelling of the native sentinel address. -/
def sentinelUpper : String := "0xEEEEEEEEEEEEEEEEEEEEEEEEEEEEEEEEEEEEEEEE"

/-- A record whose address is the native sentinel in an uppercase
spelling, with the native flag down. -/
def recUpper : RawToken :=
  { emptyRaw with
    token_address := some sentinelUpper, balance_formatted := some 1 }

/-- Two records with equal provider USD value and distinct balances, in
balance-ascending order. -/
def recTieA : RawToken :=
  { emptyRaw with
    token_address := some "0xaaa",
    balance_formatted := some 1, usd_value := some 5 }

/-- See `recTieA`. -/
def recTieB : RawToken :=
  { emptyRaw with
    token_address := some "0xbbb",
    balance_formatted := some 5, usd_value := some 5 }

/-- A hidden (non-preset) record with provider USD value 5. -/
def hidRec : RawToken :=
  { emptyRaw with token_address := some "0xabc", usd_value := some 5 }

/-- A service result with no displayed tokens and one hidden token worth
5 USD; its `totalValue` is the displayed-set total, `0`. -/
def cexResult : WalletBalanceResult :=
  { displayedTokens := [], hiddenTokens := [hidRec], totalValue := 0,
    total24hrChange := 0, chainName := "Ethereum" }

/-- An upstream response with no recognizable shape. -/
def respEmpty : UpstreamOk :=
  { result := none, rawResult := none, rawArray := none, selfArray := none }

/-- A valid mixed-case wallet address. -/
def addrA : String := "0xAbCdEfAbCdEfAbCdEfAbCdEfAbCdEfAbCdEfAbCd"

/-- The lower-case spelling of `addrA`. -/
def addrALower : String := "0xabcdefabcdefabcdefabcdefabcdefabcdefabcd"

/-! ## Lemmas about the stable sort -/

theorem insertStable_perm (lt : α → α → Bool) (x : α) :
    ∀ acc : List α, List.Perm (insertStable lt acc x) (x :: acc) := by
  intro acc
  induction acc with
  | nil => simp [insertStable]
  | cons y ys ih =>
      simp only [insertStable]
      by_cases h : lt x y
      · simp [h]
      · simp only [h, if_neg, Bool.false_eq_true, not_false_iff, if_false]
        exact ((ih.cons y).trans (List.Perm.swap x y ys))

theorem sortJS_foldl_perm (lt : α → α → Bool) :
    ∀ (l acc : List α),
      List.Perm (List.foldl (insertStable lt) acc l) (l ++ acc) := by
  intro l
  induction l with
  | nil => intro acc; simp
  | cons x xs ih =>
      intro acc
      have h1 := ih (insertStable lt acc x)
      have h2 : List.Perm (xs ++ insertStable lt acc x) (xs ++ (x :: acc)) :=
        List.Perm.append_left xs (insertStable_perm lt x acc)
      have h3 : List.Perm (xs ++ (x :: acc)) ((x :: xs) ++ acc) :=
        List.perm_middle
      exact (h1.trans h2).trans h3

theorem sortJS_perm (lt : α → α → Bool) (l : List α) :
    List.Perm (sortJS lt l) l := by
  have h := sortJS_foldl_perm lt l []
  simpa [sortJS] using h

theorem sortJS_mem (lt : α → α → Bool) (l : List α) (a : α) :
    a ∈ sortJS lt l ↔ a ∈ l :=
  (sortJS_perm lt l).mem_iff

theorem insertStable_pairwise (lt : α → α → Bool)
    (htrans : ∀ a b c, lt a b = true → lt b c = true → lt a c = true)
    (hasym : ∀ a b, lt a b = true → lt b a = false)
    (x : α) :
    ∀ acc : List α, List.Pairwise (fun a b => lt b a = false) acc →
      List.Pairwise (fun a b => lt b a = false) (insertStable lt acc x) := by
  intro acc
  induction acc with
  | nil => intro _; simp [insertStable]
  | cons y ys ih =>
      intro hs
      rw [List.pairwise_cons] at hs
      obtain ⟨hy, hys⟩ := hs
      simp only [insertStable]
      by_cases h : lt x y
      · simp only [h, if_true]
        rw [List.pairwise_cons]
        refine ⟨?_, ?_⟩
        · intro b hb
          rcases List.mem_cons.mp hb with hb | hb
          · subst hb
            exact hasym _ _ h
          · by_contra hbx
            have hbx2 : lt b x = true := by
              cases hlt : lt b x with
              | true => rfl
              | false => exact absurd hlt hbx
            have hby : lt b y = true := htrans _ _ _ hbx2 h
            have := hy b hb
            rw [this] at hby
            exact Bool.false_ne_true hby
        · rw [List.pairwise_cons]
          exact ⟨hy, hys⟩
      · have hb : lt x y = false := by
          cases hlt : lt x y with
          | true => exact absurd hlt h
          | false => rfl
        simp only [hb, Bool.false_eq_true, if_false]
        rw [List.pairwise_cons]
        refine ⟨?_, ih hys⟩
        intro b hb2
        have hmem := (insertStable_perm lt x ys).mem_iff.mp hb2
        rcases List.mem_cons.mp hmem with hb3 | hb3
        · subst hb3; exact hb
        · exact hy b hb3

theorem sortJS_pairwise (lt : α → α → Bool)
    (htrans : ∀ a b c, lt a b = true → lt b c = true → lt a c = true)
    (hasym : ∀ a b, lt a b = true → lt b a = false)
    (l : List α) :
    List.Pairwise (fun a b => lt b a = false) (sortJS lt l) := by
  have haux : ∀ (l acc : List α),
      List.Pairwise (fun a b => lt b a = false) acc →
      List.Pairwise (fun a b => lt b a = false)
        (List.foldl (insertStable lt) acc l) := by
    intro l
    induction l with
    | nil => intro acc h; simpa using h
    | cons x xs ih =>
        intro acc h
        exact ih _ (insertStable_pairwise lt htrans hasym x acc h)
  simpa [sortJS] using haux l [] (by simp)

/-! ## The price resolver: claim C1 -/

theorem assocFind_mem {m : List (String × ℚ)} {s : String} {v : ℚ}
    (h : assocFind m s = some v) : ∃ kv, kv ∈ m ∧ kv.2 = v := by
  unfold assocFind at h
  obtain ⟨kv, hf, hv⟩ := Option.map_eq_some'.mp h
  exact ⟨kv, List.mem_of_find?_eq_some hf, hv⟩

theorem fallbackPrices_ne_zero {s : String} {v : ℚ}
    (h : assocFind fallbackPrices s = some v) : v ≠ 0 := by
  obtain ⟨kv, hmem, hv⟩ := assocFind_mem h
  have hall : ∀ kv ∈ fallbackPrices, kv.2 ≠ (0 : ℚ) := by
    intro kv hkv
    fin_cases hkv <;> norm_num
  rw [← hv]; exact hall kv hmem

theorem optEntry_mem {m : List (String × ℚ)} {s : Option String} {v : ℚ}
    (h : optEntry m s = some v) : ∃ kv, kv ∈ m ∧ kv.2 = v := by
  cases s with
  | none => simp [optEntry] at h
  | some s0 => exact assocFind_mem h

theorem fetchLiveTokenPrice_pos {st : PriceState}
    {live : Option String → Option ℚ} {symbol : Option String} {p : ℚ}
    (hlive : ∀ kv ∈ st.livePrices, (0 : ℚ) < kv.2)
    (h : fetchLiveTokenPrice st live symbol = some p) : 0 < p := by
  unfold fetchLiveTokenPrice at h
  split at h
  · rename_i c he
    split at h
    · rename_i hc
      obtain ⟨kv, hmem, hv⟩ := optEntry_mem he
      have hpos := hlive kv hmem
      have hcp : c = p := Option.some.inj h
      rw [hv, hcp] at hpos
      exact hpos
    · split at h
      · rename_i q hl
        split at h
        · rename_i hq
          have hqp : q = p := Option.some.inj h
          rw [← hqp]; exact hq
        · exact absurd h (by simp)
      · exact absurd h (by simp)
  · rename_i he
    split at h
    · rename_i q hl
      split at h
      · rename_i hq
        have hqp : q = p := Option.some.inj h
        rw [← hqp]; exact hq
      · exact absurd h (by simp)
    · exact absurd h (by simp)

theorem tail_matches_claim (st : PriceState)
    (live : Option String → Option ℚ) (symbol : Option String)
    (hlive : ∀ kv ∈ st.livePrices, (0 : ℚ) < kv.2) :
    (match priceTier4 symbol with
     | some f => f
     | none =>
       match priceTier5 st live symbol with
       | some lp => lp
       | none => 0) = resolvePriceClaimTail st live symbol := by
  unfold priceTier4 priceTier5 resolvePriceClaimTail
  cases h4 : optEntry fallbackPrices symbol with
  | some f =>
      have hf : f ≠ 0 := by
        cases symbol with
        | none => simp [optEntry] at h4
        | some s0 => exact fallbackPrices_ne_zero h4
      simp [hf]
  | none =>
      simp only []
      cases h5 : fetchLiveTokenPrice st live symbol with
      | some p =>
          have hp : 0 < p := fetchLiveTokenPrice_pos hlive h5
          simp [hp]
      | none => simp

/-- Claim C1:  For every call to `getTokenPrice`, the resolved price is the
claim's tiered resolution: the provider price when strictly between 0 and
1000000; else the value/balance quotient when both are positive and the
quotient lies strictly between 0 and 1000000; else the cached external
price for the symbol when present and unexpired; else the static fallback
entry when present; else the on-demand lookup result; else 0.  The
hypotheses record that cached external prices are never the number 0:
`updateTokenPrices` writes `api.usd || fallback` (so a zero is replaced
by a nonzero fallback), and `fetchLiveTokenPrice` only caches strictly
positive prices. -/
theorem getTokenPrice_matches_claim (st : PriceState)
    (live : Option String → Option ℚ) (symbol : Option String)
    (moralisPrice moralisValue : Option ℚ) (balance : ℚ)
    (hcache : ∀ kv ∈ st.tokenPrices.getD [], kv.2 ≠ (0 : ℚ))
    (hlive : ∀ kv ∈ st.livePrices, (0 : ℚ) < kv.2) :
    getTokenPrice st live symbol moralisPrice moralisValue balance
      = resolvePriceClaim st live symbol moralisPrice moralisValue
          balance := by
  unfold getTokenPrice resolvePriceClaim
  cases h1 : priceTier1 moralisPrice with
  | some p => rfl
  | none =>
  cases h2 : priceTier2 moralisValue balance with
  | some c => rfl
  | none =>
  cases htp : st.tokenPrices with
  | some m =>
      cases he : optEntry m symbol with
      | some c =>
          have hc : c ≠ 0 := by
            obtain ⟨kv, hmem, hv⟩ := optEntry_mem he
            have := hcache kv (by rw [htp]; simpa using hmem)
            rw [← hv]; exact this
          simp [priceTier3, htp, he, hc]
      | none =>
          simp only [priceTier3, htp, he]
          exact tail_matches_claim st live symbol hlive
  | none =>
      simp only [priceTier3, htp]
      exact tail_matches_claim st live symbol hlive

/-- Witness for C1 at a concrete cache state: the hypotheses hold for
`pst0` and the resolved price agrees with the claim's resolution. -/
theorem getTokenPrice_matches_claim_witness :
    (∀ kv ∈ pst0.tokenPrices.getD [], kv.2 ≠ (0 : ℚ))
      ∧ getTokenPrice pst0 liveNone (some "USDT") none none 0
          = resolvePriceClaim pst0 liveNone (some "USDT") none none 0 :=
  ⟨by intro kv hkv; fin_cases hkv <;> norm_num,
   getTokenPrice_matches_claim pst0 liveNone (some "USDT") none none 0
     (by intro kv hkv; fin_cases hkv <;> norm_num)
     (by intro kv hkv; fin_cases hkv <;> norm_num)⟩

/-! ## Error handling of `getWalletTokenBalances`: claim C7 -/

/-- Claim C7, counterexample:  In `src/services/moralis/index.js`, a
provider failure (here a rate-limit error) on a cache miss is re-raised
to the caller (line 186 `throw error`), not absorbed into an empty
result. -/
theorem getWalletTokenBalancesSvc_raises :
    (getWalletTokenBalancesSvc none true (some ci0)
      (Except.error UpstreamErr.rateLimited) "1").result
      = Except.error (SvcError.upstream UpstreamErr.rateLimited) := rfl

/-- Claim C7, amended:  On a cache miss with a failing provider call, the
`part_000` first rewrite returns an empty token list without raising
(its catch at lines 196-207 returns `[]` for any error class), while the
`src/services/moralis/index.js` version re-raises the provider error to
its caller. -/
theorem getWalletTokenBalances_error_behavior :
    (∀ (enable : Bool) (ci : Option ChainInfo) (e : UpstreamErr)
        (cid : String),
      (getWalletTokenBalancesP0 none enable ci (Except.error e) cid).result
        = Except.ok [])
    ∧ (∀ (ci : ChainInfo) (e : UpstreamErr) (cid : String),
      (getWalletTokenBalancesSvc none true (some ci)
        (Except.error e) cid).result
        = Except.error (SvcError.upstream e)) := by
  constructor
  · intro enable ci e cid
    cases ci with
    | none => rfl
    | some c => rfl
  · intro ci e cid
    rfl

/-! ## The snapshot cache: claim C9 -/

/-- Claim C9:  With caching enabled, a call that finds an unexpired cache
entry returns exactly the cached token list without invoking the
provider and leaves the entry in place (`src/services/moralis/index.js`
lines 51-59); after a successful uncached call, repeating the call with
the written cache entry returns the identical list without a second
provider request; the cache TTL defaults to 300 seconds and any nonzero
configured value is honored (lines 8-11). -/
theorem cache_hit_behavior :
    (∀ (ts : List ProcessedToken) (ci : Option ChainInfo)
        (up : Except UpstreamErr UpstreamOk) (cid : String),
      getWalletTokenBalancesSvc (some ts) true ci up cid
        = { result := Except.ok ts, providerCalled := false,
            cacheAfter := some ts })
    ∧ (∀ (ci : ChainInfo) (up : Except UpstreamErr UpstreamOk)
        (cid : String) (ts : List ProcessedToken),
      (getWalletTokenBalancesSvc none true (some ci) up cid).result
          = Except.ok ts →
      getWalletTokenBalancesSvc
          ((getWalletTokenBalancesSvc none true (some ci) up cid).cacheAfter)
          true (some ci) up cid
        = { result := Except.ok ts, providerCalled := false,
            cacheAfter := some ts })
    ∧ cacheTTLSeconds none = 300
    ∧ (∀ n : Nat, n ≠ 0 → cacheTTLSeconds (some n) = n) := by
  refine ⟨fun ts ci up cid => rfl, ?_, rfl, fun n hn => by
    simp [cacheTTLSeconds, hn]⟩
  intro ci up cid ts h
  cases up with
  | error e => exact absurd h (by simp [getWalletTokenBalancesSvc])
  | ok resp =>
      have hts : processTokenBalancesSvc (parseTokensSvc resp) ci cid = ts :=
        Except.ok.inj h
      simp [getWalletTokenBalancesSvc, hts]

/-- Witness for C9: a concrete cache hit, a concrete repeat call, and a
concrete configured TTL. -/
theorem cache_hit_behavior_witness :
    getWalletTokenBalancesSvc (some [zeroNativeToken ci0 "1"]) true
        (some ci0) (Except.ok respEmpty) "1"
      = { result := Except.ok [zeroNativeToken ci0 "1"],
          providerCalled := false,
          cacheAfter := some [zeroNativeToken ci0 "1"] }
    ∧ ((getWalletTokenBalancesSvc none true (some ci0)
          (Except.ok respEmpty) "1").result = Except.ok []
        ∧ getWalletTokenBalancesSvc
            ((getWalletTokenBalancesSvc none true (some ci0)
              (Except.ok respEmpty) "1").cacheAfter)
            true (some ci0) (Except.ok respEmpty) "1"
          = { result := Except.ok [], providerCalled := false,
              cacheAfter := some [] })
    ∧ cacheTTLSeconds (some 120) = 120 :=
  ⟨cache_hit_behavior.1 [zeroNativeToken ci0 "1"] (some ci0)
     (Except.ok respEmpty) "1",
   ⟨rfl, cache_hit_behavior.2.1 ci0 (Except.ok respEmpty) "1" [] rfl⟩,
   cache_hit_behavior.2.2.2 120 (by norm_num)⟩

/-! ## The route's total value: claim C2 -/

theorem routeProcessToken_value (cid : String) (t : RawToken) :
    (routeProcessToken cid t).value = (t.usd_value).getD 0 := rfl

theorem tokenValueSum_perm {l₁ l₂ : List ProcessedToken}
    (h : List.Perm l₁ l₂) : tokenValueSum l₁ = tokenValueSum l₂ :=
  List.Perm.sum_eq (h.map (fun t => t.value))

/-- Claim C2, counterexample:  A service result whose displayed set is
empty and whose hidden set holds one token worth 5 USD satisfies the
producer's invariant (`totalValue` = displayed-set total = 0), yet with
`showHidden` set the route returns that hidden token while reporting
`totalValue = 0 ≠ 5`: the reported total does not equal the sum of
`value` over the returned token list. -/
theorem routeTotal_hidden_mismatch :
    WalletBalanceResultWF cexResult
      ∧ ¬ ((routeWalletResponse "1" cexResult true).totalValue
        = tokenValueSum (routeWalletResponse "1" cexResult true).tokens) := by
  constructor
  · simp [WalletBalanceResultWF, cexResult]
  · norm_num [routeWalletResponse, cexResult, hidRec, emptyRaw,
      routeProcessToken, tokenValueSum, sortJS, insertStable, ltValueOnly,
      sentinelMixed, strOr, decimalsOr]

/-- Claim C2, amended:  The reported total always equals the sum of `value`
over the preset (displayed) tokens only — `src/routes/tokens.js` returns
`result.totalValue` unchanged (line 165) while extending the token list
with the hidden set when `showHidden` is set (lines 150-154).  In
particular the claimed invariant holds exactly when hidden tokens are not
requested. -/
theorem routeTotal_presetOnly (cid : String) (r : WalletBalanceResult)
    (showHidden : Bool) (hwf : WalletBalanceResultWF r) :
    (routeWalletResponse cid r showHidden).totalValue
        = tokenValueSum (r.displayedTokens.map (routeProcessToken cid))
      ∧ (showHidden = false →
        (routeWalletResponse cid r showHidden).totalValue
          = tokenValueSum (routeWalletResponse cid r showHidden).tokens) := by
  have hdisp : tokenValueSum (r.displayedTokens.map (routeProcessToken cid))
      = (r.displayedTokens.map (fun t => (t.usd_value).getD 0)).sum := by
    unfold tokenValueSum
    rw [List.map_map]
    rfl
  have h1 : (routeWalletResponse cid r showHidden).totalValue
      = tokenValueSum (r.displayedTokens.map (routeProcessToken cid)) := by
    rw [hdisp]
    exact hwf
  refine ⟨h1, fun hfalse => ?_⟩
  have htok : (routeWalletResponse cid r showHidden).tokens
      = sortJS ltValueOnly (r.displayedTokens.map (routeProcessToken cid)) := by
    simp [routeWalletResponse, hfalse]
  rw [htok, tokenValueSum_perm (sortJS_perm ltValueOnly _)]
  exact h1

/-- Witness for C2's amended statement at the concrete service result
`cexResult` with `showHidden = false`. -/
theorem routeTotal_presetOnly_witness :
    WalletBalanceResultWF cexResult
      ∧ ((routeWalletResponse "1" cexResult false).totalValue
          = tokenValueSum (cexResult.displayedTokens.map
              (routeProcessToken "1"))
        ∧ (false = false →
          (routeWalletResponse "1" cexResult false).totalValue
            = tokenValueSum (routeWalletResponse "1" cexResult
                false).tokens)) :=
  ⟨by simp [WalletBalanceResultWF, cexResult],
   routeTotal_presetOnly "1" cexResult false
     (by simp [WalletBalanceResultWF, cexResult])⟩

/-! ## Spam filtering: claim C3 -/

/-- Claim C3, counterexample:  A spam-flagged record that is neither native
nor preset, with balance 1 (positive), is nevertheless kept by the
`part_000` first rewrite: its spam filter (lines 287-297) only fires
below balance 0.001. -/
theorem spam_kept_at_positive_balance :
    spamRec.possible_spam = true
      ∧ findPopular ci0 spamRec.token_address = none
      ∧ isNativeTokenP0 spamRec = false
      ∧ 0 < parsedBalanceP0 spamRec
      ∧ ((processTokenBalancesP0 [spamRec] ci0 "1").map
          (fun tok => (tok.possibleSpam, tok.isPopular, tok.isNative)))
        = [(some true, some false, false)] := by
  have hnat : isNativeTokenP0 spamRec = false := by decide
  have hpop : findPopular ci0 spamRec.token_address = none := rfl
  have hbal : parsedBalanceP0 spamRec = 1 := rfl
  refine ⟨rfl, hpop, hnat, by rw [hbal]; norm_num, ?_⟩
  have hc1 : ¬ (parsedBalanceP0 spamRec ≤ 0
      ∧ isNativeTokenP0 spamRec = false
      ∧ (findPopular ci0 spamRec.token_address).isNone = true
      ∧ parsedBalanceP0 spamRec = 0) := by
    intro hcontra
    rw [hbal] at hcontra
    norm_num at hcontra
  have hc2 : ¬ (spamRec.possible_spam = true
      ∧ parsedBalanceP0 spamRec < 1 / 1000
      ∧ isNativeTokenP0 spamRec = false
      ∧ (findPopular ci0 spamRec.token_address).isNone = true) := by
    intro hcontra
    rw [hbal] at hcontra
    norm_num at hcontra
  unfold processTokenBalancesP0
  simp only [processLoopP0]
  rw [if_neg hc1, if_neg hc2, if_neg (by rw [hnat]; exact
    Bool.false_ne_true)]
  rfl

/-- Claim C3, amended:  A spam-flagged record that is not preset is dropped
by the `src/services/moralis/index.js` loop (lines 229-241), regardless
of the native flag; the `part_000` first rewrite drops a spam-flagged
record only when additionally its balance is below 0.001 and it is not
native (lines 287-297). -/
theorem spam_filter_behavior :
    (∀ (t : RawToken) (rest : List RawToken) (ci : ChainInfo)
        (cid : String),
      t.possible_spam = true → findPopular ci t.token_address = none →
      processLoopSvc ci cid (t :: rest) = processLoopSvc ci cid rest)
    ∧ (∀ (t : RawToken) (rest : List RawToken) (ci : ChainInfo)
        (cid : String),
      t.possible_spam = true → parsedBalanceP0 t < 1 / 1000 →
      isNativeTokenP0 t = false → findPopular ci t.token_address = none →
      processLoopP0 ci cid (t :: rest) = processLoopP0 ci cid rest) := by
  constructor
  · intro t rest ci cid hspam hpop
    by_cases hb : parsedBalanceSvc t ≤ 0
    · simp [processLoopSvc, hb]
    · simp [processLoopSvc, hb, hspam, hpop]
  · intro t rest ci cid hspam hsmall hnat hpop
    have hc2 : t.possible_spam = true ∧ parsedBalanceP0 t < 1 / 1000
        ∧ isNativeTokenP0 t = false
        ∧ (findPopular ci t.token_address).isNone = true :=
      ⟨hspam, hsmall, hnat, by rw [hpop]; rfl⟩
    by_cases hc1 : parsedBalanceP0 t ≤ 0 ∧ isNativeTokenP0 t = false
        ∧ (findPopular ci t.token_address).isNone = true
        ∧ parsedBalanceP0 t = 0
    · simp only [processLoopP0]
      rw [if_pos hc1]
    · simp only [processLoopP0]
      rw [if_neg hc1, if_pos hc2]

/-- Witness for C3's amended statement: the spam record is dropped by the
service loop, and its low-balance variant is dropped by the `part_000`
loop. -/
theorem spam_filter_behavior_witness :
    processLoopSvc ci0 "1" [spamRec] = processLoopSvc ci0 "1" []
      ∧ processLoopP0 ci0 "1" [spamRecTiny] = processLoopP0 ci0 "1" [] :=
  ⟨spam_filter_behavior.1 spamRec [] ci0 "1" rfl rfl,
   spam_filter_behavior.2 spamRecTiny [] ci0 "1" rfl
     (by norm_num [parsedBalanceP0, spamRecTiny, emptyRaw])
     (by decide) rfl⟩

/-! ## Zero-balance filtering: claim C5 -/

/-- Claim C5, counterexample:  In `src/services/moralis/index.js`, a native
record with balance 0 is dropped (line 221 skips every record with
balance ≤ 0, with no exception for native or preset tokens), where the
claim says native tokens are kept even at zero balance. -/
theorem native_zero_dropped_by_svc :
    recNative0.native_token = true
      ∧ parsedBalanceSvc recNative0 = 0
      ∧ processTokenBalancesSvc [recNative0] ci0 "1" = [] := by
  refine ⟨rfl, rfl, ?_⟩
  norm_num [processTokenBalancesSvc, processLoopSvc, parsedBalanceSvc,
    recNative0, emptyRaw, sortJS]

/-- Claim C5, amended:  In the `part_000` first rewrite, a non-native,
non-preset record with balance exactly 0 is dropped, and a native or
preset record with balance 0 is kept (lines 266-284); in
`src/services/moralis/index.js`, every record with balance ≤ 0 is
dropped, native and preset included (line 221). -/
theorem zero_balance_behavior :
    (∀ (t : RawToken) (rest : List RawToken) (ci : ChainInfo)
        (cid : String),
      isNativeTokenP0 t = false → findPopular ci t.token_address = none →
      parsedBalanceP0 t = 0 →
      processLoopP0 ci cid (t :: rest) = processLoopP0 ci cid rest)
    ∧ (∀ (t : RawToken) (rest : List RawToken) (ci : ChainInfo)
        (cid : String),
      parsedBalanceP0 t = 0 →
      (isNativeTokenP0 t = true
        ∨ (findPopular ci t.token_address).isSome = true) →
      (processLoopP0 ci cid (t :: rest)).length
        = (processLoopP0 ci cid rest).length + 1)
    ∧ (∀ (t : RawToken) (rest : List RawToken) (ci : ChainInfo)
        (cid : String),
      parsedBalanceSvc t ≤ 0 →
      processLoopSvc ci cid (t :: rest) = processLoopSvc ci cid rest) := by
  refine ⟨?_, ?_, ?_⟩
  · intro t rest ci cid hnat hpop hb0
    simp [processLoopP0, hb0, hnat, hpop]
  · intro t rest ci cid hb0 hkeep
    have hc1 : ¬ (parsedBalanceP0 t ≤ 0 ∧ isNativeTokenP0 t = false
        ∧ (findPopular ci t.token_address).isNone = true
        ∧ parsedBalanceP0 t = 0) := by
      intro hcontra
      rcases hkeep with hk | hk
      · rw [hcontra.2.1] at hk; exact Bool.false_ne_true hk
      · rw [Option.isNone_iff_eq_none] at hcontra
        rw [hcontra.2.2.1] at hk
        exact Bool.false_ne_true hk
    have hc2 : ¬ (t.possible_spam = true ∧ parsedBalanceP0 t < 1 / 1000
        ∧ isNativeTokenP0 t = false
        ∧ (findPopular ci t.token_address).isNone = true) := by
      intro hcontra
      rcases hkeep with hk | hk
      · rw [hcontra.2.2.1] at hk; exact Bool.false_ne_true hk
      · rw [Option.isNone_iff_eq_none] at hcontra
        rw [hcontra.2.2.2] at hk
        exact Bool.false_ne_true hk
    by_cases hnat : isNativeTokenP0 t = true
    · simp only [processLoopP0]
      rw [if_neg hc1, if_neg hc2, if_pos hnat]
      simp
    · have hpop : (findPopular ci t.token_address).isSome = true := by
        rcases hkeep with hk | hk
        · exact absurd hk hnat
        · exact hk
      have haddr : ∃ a, t.token_address = some a := by
        cases ha : t.token_address with
        | none => rw [ha] at hpop; simp [findPopular] at hpop
        | some a => exact ⟨a, rfl⟩
      obtain ⟨a, ha⟩ := haddr
      simp only [processLoopP0]
      rw [if_neg hc1, if_neg hc2, if_neg hnat, ha]
      simp
  · intro t rest ci cid hb
    simp [processLoopSvc, hb]

/-- Witness for C5's amended statement: a zero-balance non-preset record
is dropped and a zero-balance native record is kept by the `part_000`
loop; a zero-balance native record is dropped by the service loop. -/
theorem zero_balance_behavior_witness :
    processLoopP0 ci0 "1" [hidRec] = processLoopP0 ci0 "1" []
      ∧ (processLoopP0 ci0 "1" [recNative0]).length
          = (processLoopP0 ci0 "1" []).length + 1
      ∧ processLoopSvc ci0 "1" [recNative0] = processLoopSvc ci0 "1" [] :=
  ⟨zero_balance_behavior.1 hidRec [] ci0 "1" (by decide) rfl rfl,
   zero_balance_behavior.2.1 recNative0 [] ci0 "1" rfl (Or.inl (by decide)),
   zero_balance_behavior.2.2 recNative0 [] ci0 "1" (le_refl 0)⟩

/-! ## The value invariant: claim C8 -/

theorem processLoopEnh_invariant (st : PriceState)
    (live : Option String → Option ℚ) (ci : ChainInfo) (cid : String) :
    ∀ (input : List RawToken) (tok : ProcessedToken),
      tok ∈ processLoopEnh st live ci cid input →
      tok.value = tok.balance * tok.price ∧ 0 ≤ tok.balance := by
  intro input
  induction input with
  | nil => intro tok h; simp [processLoopEnh] at h
  | cons t rest ih =>
      intro tok h
      simp only [processLoopEnh] at h
      by_cases hb : parsedBalanceEnh t ≤ 0
      · rw [if_pos hb] at h
        exact ih tok h
      · rw [if_neg hb] at h
        have hbpos : 0 ≤ parsedBalanceEnh t := le_of_lt (lt_of_not_le hb)
        by_cases hn : isNativeTokenEnh t = true
        · rw [if_pos hn] at h
          rcases List.mem_cons.mp h with heq | hmem
          · subst heq
            exact ⟨rfl, hbpos⟩
          · exact ih tok hmem
        · rw [if_neg hn] at h
          cases ha : t.token_address with
          | some addr =>
              rw [ha] at h
              rcases List.mem_cons.mp h with heq | hmem
              · subst heq
                exact ⟨rfl, hbpos⟩
              · exact ih tok hmem
          | none =>
              rw [ha] at h
              exact ih tok h

/-- Claim C8, amended:  Every token produced by
`processTokenBalancesEnhanced` satisfies `value = balance × price`
(line 1604 computes `value = balance * price` from the resolved price)
and `balance ≥ 0` (records with balance ≤ 0 are skipped at
lines 1579-1582).  In the `src/services/moralis/index.js` version,
`value` and `price` are copied independently from the provider's
`usd_value` and `usd_price` fields, so the identity can fail there (see
the counterexample). -/
theorem enhanced_value_invariant (st : PriceState)
    (live : Option String → Option ℚ) (input : List RawToken)
    (ci : ChainInfo) (cid : String) (tok : ProcessedToken)
    (h : tok ∈ processTokenBalancesEnhanced st live input ci cid) :
    tok.value = tok.balance * tok.price ∧ 0 ≤ tok.balance := by
  rw [processTokenBalancesEnhanced, sortJS_mem] at h
  exact processLoopEnh_invariant st live ci cid input tok h

/-- Claim C8, counterexample:  In `src/services/moralis/index.js`, a native
record with formatted balance 2, provider price 3 and provider value 10
is processed into a token with `value = 10` but `balance × price = 6`
(lines 248-264 copy `usd_value` and `usd_price` independently). -/
theorem svc_value_not_balance_times_price :
    ((processTokenBalancesSvc [recNat] ci0 "1").map
        (fun t => (t.value, t.balance * t.price))) = [(10, 6)]
      ∧ (10 : ℚ) ≠ 6 := by
  constructor
  · norm_num [processTokenBalancesSvc, processLoopSvc, parsedBalanceSvc,
      recNat, emptyRaw, mkNativeSvc, sortJS, insertStable, strOr, logoOr,
      getNativeTokenLogo, ci0]
  · norm_num

/-- Witness for C8's amended statement: the concrete token produced from
`recEnh` (priced through the cached external ETH price) satisfies the
invariant. -/
theorem enhanced_value_invariant_witness :
    mkNativeEnh ci0 "1" recEnh 1 3000 3000 0 0
        ∈ processTokenBalancesEnhanced pst0 liveNone [recEnh] ci0 "1"
      ∧ ((mkNativeEnh ci0 "1" recEnh 1 3000 3000 0 0).value
          = (mkNativeEnh ci0 "1" recEnh 1 3000 3000 0 0).balance
            * (mkNativeEnh ci0 "1" recEnh 1 3000 3000 0 0).price
        ∧ 0 ≤ (mkNativeEnh ci0 "1" recEnh 1 3000 3000 0 0).balance) :=
  have hmem : mkNativeEnh ci0 "1" recEnh 1 3000 3000 0 0
      ∈ processTokenBalancesEnhanced pst0 liveNone [recEnh] ci0 "1" := by
    norm_num [processTokenBalancesEnhanced, processLoopEnh,
      parsedBalanceEnh, recEnh, emptyRaw, isNativeTokenEnh, truthyNum,
      getTokenPrice, priceTier1, priceTier2, priceTier3, pst0, optEntry,
      assocFind, sortJS, insertStable]
  ⟨hmem, enhanced_value_invariant pst0 liveNone [recEnh] ci0 "1" _ hmem⟩

/-! ## Output ordering: claim C6 -/

theorem ltLexP0_trans (a b c : ProcessedToken) (h1 : ltLexP0 a b = true)
    (h2 : ltLexP0 b c = true) : ltLexP0 a c = true := by
  simp only [ltLexP0, decide_eq_true_eq] at h1 h2 ⊢
  rcases h1 with h1 | ⟨h1e, h1b⟩
  · rcases h2 with h2 | ⟨h2e, h2b⟩
    · exact Or.inl (lt_trans h2 h1)
    · exact Or.inl (h2e ▸ h1)
  · rcases h2 with h2 | ⟨h2e, h2b⟩
    · exact Or.inl (h1e ▸ h2)
    · exact Or.inr ⟨h2e.trans h1e, lt_trans h2b h1b⟩

theorem ltLexP0_asym (a b : ProcessedToken) (h : ltLexP0 a b = true) :
    ltLexP0 b a = false := by
  simp only [ltLexP0, decide_eq_true_eq] at h
  simp only [ltLexP0, decide_eq_false_iff_not]
  rcases h with h | ⟨he, hb⟩
  · intro hc
    rcases hc with hc | ⟨hce, _⟩
    · exact absurd (lt_trans h hc) (lt_irrefl _)
    · exact absurd hce (ne_of_gt h)
  · intro hc
    rcases hc with hc | ⟨_, hcb⟩
    · exact absurd (he ▸ hc) (lt_irrefl _)
    · exact absurd (lt_trans hb hcb) (lt_irrefl _)

theorem ltValueOnly_trans (a b c : ProcessedToken)
    (h1 : ltValueOnly a b = true) (h2 : ltValueOnly b c = true) :
    ltValueOnly a c = true := by
  simp only [ltValueOnly, decide_eq_true_eq] at h1 h2 ⊢
  exact lt_trans h2 h1

theorem ltValueOnly_asym (a b : ProcessedToken)
    (h : ltValueOnly a b = true) : ltValueOnly b a = false := by
  simp only [ltValueOnly, decide_eq_true_eq] at h
  simp only [ltValueOnly, decide_eq_false_iff_not]
  exact fun hc => absurd (lt_trans h hc) (lt_irrefl _)

/-- Claim C6, amended:  The `part_000` first-rewrite output is sorted by
value descending with ties broken by balance descending (its two-level
comparator, lines 437-442); the `src/services/moralis/index.js` output is
sorted by value descending only (its single-level comparator at line 326)
— within equal values the stable sort keeps processing order, not
balance order. -/
theorem processed_output_sorted :
    (∀ (input : List RawToken) (ci : ChainInfo) (cid : String),
      List.Pairwise (fun a b : ProcessedToken =>
          b.value < a.value
            ∨ (b.value = a.value ∧ b.balance ≤ a.balance))
        (processTokenBalancesP0 input ci cid))
    ∧ (∀ (input : List RawToken) (ci : ChainInfo) (cid : String),
      List.Pairwise (fun a b : ProcessedToken => b.value ≤ a.value)
        (processTokenBalancesSvc input ci cid)) := by
  constructor
  · intro input ci cid
    have h := sortJS_pairwise ltLexP0 ltLexP0_trans ltLexP0_asym
      (processLoopP0 ci cid input)
    refine h.imp ?_
    intro a b hab
    simp only [ltLexP0, decide_eq_false_iff_not] at hab
    push_neg at hab
    obtain ⟨h1, h2⟩ := hab
    rcases lt_or_eq_of_le h1 with hlt | heq
    · exact Or.inl hlt
    · exact Or.inr ⟨heq, h2 heq.symm⟩
  · intro input ci cid
    have h := sortJS_pairwise ltValueOnly ltValueOnly_trans
      ltValueOnly_asym (processLoopSvc ci cid input)
    refine h.imp ?_
    intro a b hab
    simp only [ltValueOnly, decide_eq_false_iff_not, not_lt] at hab
    exact hab

/-- Claim C6, counterexample:  Two kept records with equal provider value
and balances 1 then 5 are returned by `src/services/moralis/index.js` in
processing order (balance ascending), violating the claimed
balance-descending tie-break. -/
theorem svc_ties_not_balance_sorted :
    ¬ List.Pairwise (fun a b : ProcessedToken =>
        b.value < a.value ∨ (b.value = a.value ∧ b.balance ≤ a.balance))
      (processTokenBalancesSvc [recTieA, recTieB] ci0 "1") := by
  have hneA : ¬ (("0xaaa" : String) = sentinelMixed) := by decide
  have hneB : ¬ (("0xbbb" : String) = sentinelMixed) := by decide
  have heval : processTokenBalancesSvc [recTieA, recTieB] ci0 "1"
      = [mkErc20Svc ci0 "1" recTieA "0xaaa" 1,
         mkErc20Svc ci0 "1" recTieB "0xbbb" 5] := by
    norm_num [processTokenBalancesSvc, processLoopSvc, parsedBalanceSvc,
      recTieA, recTieB, emptyRaw, mkErc20Svc, findPopular, ci0, sortJS,
      insertStable, ltValueOnly, jsToLower, strOr, logoOr, getTokenLogo,
      decimalsOr, popularDecimals, hneA, hneB]
  intro h
  rw [heval, List.pairwise_cons] at h
  have hrel := h.1 _ (List.mem_singleton_self _)
  norm_num [mkErc20Svc, recTieA, recTieB, emptyRaw] at hrel


/-! ## Native classification: claim C4 -/

theorem isNativeTokenP0_iff (t : RawToken) :
    isNativeTokenP0 t = true
      ↔ (t.native_token = true ∨ t.token_address = some sentinelMixed
        ∨ t.token_address = some sentinelLower
        ∨ t.token_address = none) := by
  unfold isNativeTokenP0
  cases hn : t.native_token with
  | true => simp
  | false =>
      cases ha : t.token_address with
      | none => simp
      | some a => simp

theorem isNativeSvc_iff (t : RawToken) :
    (t.native_token || t.token_address == some sentinelMixed) = true
      ↔ (t.native_token = true ∨ t.token_address = some sentinelMixed) := by
  cases hn : t.native_token with
  | true => simp
  | false =>
      cases ha : t.token_address with
      | none => simp
      | some a => simp

/-- Claim C4, amended:  In the `part_000` first rewrite, a record is
classified native exactly when its native-token flag is set, or its
contract address is one of the two exact sentinel spellings (canonical
mixed-case or all-lowercase — not an arbitrary case-insensitive match),
or it has no contract address; every record so classified produces a
token with `contractAddress = "native"` and `isNative = true`.  The
`src/services/moralis/index.js` version compares only the exact
mixed-case spelling and has no no-address clause. -/
theorem native_classification :
    (∀ (t : RawToken) (ci : ChainInfo) (cid : String)
        (tok : ProcessedToken),
      tok ∈ processTokenBalancesP0 [t] ci cid →
      ((tok.isNative = true ∧ tok.contractAddress = "native")
        ↔ (t.native_token = true ∨ t.token_address = some sentinelMixed
          ∨ t.token_address = some sentinelLower
          ∨ t.token_address = none)))
    ∧ (∀ (t : RawToken) (ci : ChainInfo) (cid : String),
      (t.native_token = true ∨ t.token_address = some sentinelMixed
        ∨ t.token_address = some sentinelLower
        ∨ t.token_address = none) →
      (processTokenBalancesP0 [t] ci cid).map
          (fun tok => (tok.isNative, tok.contractAddress))
        = [(true, "native")])
    ∧ (∀ (t : RawToken) (ci : ChainInfo) (cid : String)
        (tok : ProcessedToken),
      tok ∈ processTokenBalancesSvc [t] ci cid →
      ((tok.isNative = true ∧ tok.contractAddress = "native")
        ↔ (t.native_token = true
          ∨ t.token_address = some sentinelMixed))) := by
  refine ⟨?_, ?_, ?_⟩
  · intro t ci cid tok hmem
    unfold processTokenBalancesP0 at hmem
    rw [sortJS_mem] at hmem
    simp only [processLoopP0] at hmem
    rw [← isNativeTokenP0_iff]
    by_cases hc1 : parsedBalanceP0 t ≤ 0 ∧ isNativeTokenP0 t = false
        ∧ (findPopular ci t.token_address).isNone = true
        ∧ parsedBalanceP0 t = 0
    · rw [if_pos hc1] at hmem
      exact absurd hmem (List.not_mem_nil _)
    · rw [if_neg hc1] at hmem
      by_cases hc2 : t.possible_spam = true
          ∧ parsedBalanceP0 t < 1 / 1000 ∧ isNativeTokenP0 t = false
          ∧ (findPopular ci t.token_address).isNone = true
      · rw [if_pos hc2] at hmem
        exact absurd hmem (List.not_mem_nil _)
      · rw [if_neg hc2] at hmem
        by_cases hnat : isNativeTokenP0 t = true
        · rw [if_pos hnat] at hmem
          have htok := List.mem_singleton.mp hmem
          subst htok
          simp only [mkNativeP0]
          simp [hnat]
        · rw [if_neg hnat] at hmem
          cases ha : t.token_address with
          | some addr =>
              rw [ha] at hmem
              have htok := List.mem_singleton.mp hmem
              subst htok
              simp only [mkErc20P0]
              constructor
              · intro hcontra
                exact absurd hcontra.1 (by simp)
              · intro hcontra
                exact absurd hcontra hnat
          | none =>
              rw [ha] at hmem
              have htok := List.mem_singleton.mp hmem
              subst htok
              simp only [mkUnknownP0]
              constructor
              · intro hcontra
                exact absurd hcontra.1 (by simp)
              · intro hcontra
                exact absurd hcontra hnat
  · intro t ci cid hcond
    have hnat : isNativeTokenP0 t = true := (isNativeTokenP0_iff t).mpr hcond
    have hc1 : ¬ (parsedBalanceP0 t ≤ 0 ∧ isNativeTokenP0 t = false
        ∧ (findPopular ci t.token_address).isNone = true
        ∧ parsedBalanceP0 t = 0) := by
      intro hc
      rw [hnat] at hc
      exact absurd hc.2.1 (by simp)
    have hc2 : ¬ (t.possible_spam = true ∧ parsedBalanceP0 t < 1 / 1000
        ∧ isNativeTokenP0 t = false
        ∧ (findPopular ci t.token_address).isNone = true) := by
      intro hc
      rw [hnat] at hc
      exact absurd hc.2.2.1 (by simp)
    unfold processTokenBalancesP0
    simp only [processLoopP0]
    rw [if_neg hc1, if_neg hc2, if_pos hnat]
    rfl
  · intro t ci cid tok hmem
    unfold processTokenBalancesSvc at hmem
    rw [sortJS_mem] at hmem
    simp only [processLoopSvc] at hmem
    rw [← isNativeSvc_iff]
    by_cases hb : parsedBalanceSvc t ≤ 0
    · rw [if_pos hb] at hmem
      exact absurd hmem (List.not_mem_nil _)
    · rw [if_neg hb] at hmem
      by_cases hspam : t.possible_spam = true
          ∧ (findPopular ci t.token_address).isNone = true
      · rw [if_pos hspam] at hmem
        exact absurd hmem (List.not_mem_nil _)
      · rw [if_neg hspam] at hmem
        by_cases hnat : (t.native_token
            || t.token_address == some sentinelMixed) = true
        · rw [if_pos hnat] at hmem
          have htok := List.mem_singleton.mp hmem
          subst htok
          simp only [mkNativeSvc]
          simp [hnat]
        · rw [if_neg hnat] at hmem
          cases ha : t.token_address with
          | some addr =>
              rw [ha] at hmem hnat
              have htok := List.mem_singleton.mp hmem
              subst htok
              simp only [mkErc20Svc]
              constructor
              · intro hcontra
                exact absurd hcontra.1 (by simp)
              · intro hcontra
                exact absurd hcontra hnat
          | none =>
              rw [ha] at hmem
              exact absurd hmem (List.not_mem_nil _)

/-- Witness for C4's amended statement: the native-flagged record
`recNat` is classified native by the `part_000` rewrite and produces the
`(true, "native")` token. -/
theorem native_classification_witness :
    (recNat.native_token = true ∨ recNat.token_address = some sentinelMixed
      ∨ recNat.token_address = some sentinelLower
      ∨ recNat.token_address = none)
      ∧ (processTokenBalancesP0 [recNat] ci0 "1").map
          (fun tok => (tok.isNative, tok.contractAddress))
        = [(true, "native")] :=
  ⟨Or.inl rfl, native_classification.2.1 recNat ci0 "1" (Or.inl rfl)⟩

/-- Claim C4, counterexample:  A record whose contract address is the
native sentinel in an all-uppercase spelling (equal to the canonical
sentinel case-insensitively) and whose native flag is down is classified
non-native by both the `part_000` first rewrite and
`src/services/moralis/index.js`, where the claim's case-insensitive
comparison would classify it native. -/
theorem uppercase_sentinel_not_native :
    jsToLower sentinelUpper = jsToLower sentinelMixed
      ∧ recUpper.native_token = false
      ∧ (processTokenBalancesP0 [recUpper] ci0 "1").map
          (fun tok => tok.isNative) = [false]
      ∧ (processTokenBalancesSvc [recUpper] ci0 "1").map
          (fun tok => tok.isNative) = [false] := by
  have hnatP0 : isNativeTokenP0 recUpper = false := by decide
  have hnatSvc : (recUpper.native_token
      || recUpper.token_address == some sentinelMixed) = false := by decide
  refine ⟨by decide, rfl, ?_, ?_⟩
  · unfold processTokenBalancesP0
    simp only [processLoopP0]
    rw [if_neg (fun hc => absurd hc.2.2.2 (by norm_num
        [parsedBalanceP0, recUpper, emptyRaw])),
      if_neg (fun hc => Bool.false_ne_true hc.1),
      if_neg (by rw [hnatP0]; exact Bool.false_ne_true)]
    rfl
  · unfold processTokenBalancesSvc
    simp only [processLoopSvc]
    rw [if_neg (by norm_num [parsedBalanceSvc, recUpper, emptyRaw]),
      if_neg (fun hc => Bool.false_ne_true hc.1),
      if_neg (by rw [hnatSvc]; exact Bool.false_ne_true)]
    rfl

/-! ## Cache invalidation: claim C10 -/

theorem isPre_iff : ∀ (n l : List Char),
    isPre n l = true ↔ ∃ post, l = n ++ post := by
  intro n
  induction n with
  | nil =>
      intro l
      simp [isPre]
  | cons a as ih =>
      intro l
      cases l with
      | nil =>
          simp only [isPre]
          constructor
          · intro h; exact absurd h (by simp)
          · intro ⟨post, hpost⟩; simp at hpost
      | cons b bs =>
          simp only [isPre, Bool.and_eq_true, beq_iff_eq]
          rw [ih bs]
          constructor
          · intro ⟨hab, post, hpost⟩
            exact ⟨post, by rw [hab, hpost]; rfl⟩
          · intro ⟨post, hpost⟩
            rw [List.cons_append] at hpost
            injection hpost with h1 h2
            exact ⟨h1.symm, post, h2⟩

theorem hasSubstr_iff : ∀ (l n : List Char),
    hasSubstr n l = true ↔ ∃ pre post, l = pre ++ n ++ post := by
  intro l
  induction l with
  | nil =>
      intro n
      simp only [hasSubstr]
      rw [isPre_iff]
      constructor
      · intro ⟨post, hpost⟩; exact ⟨[], post, hpost⟩
      · intro ⟨pre, post, hpost⟩
        have h0 : pre ++ (n ++ post) = [] := by
          rw [← List.append_assoc]; exact hpost.symm
        have h1 := List.append_eq_nil.mp h0
        have h2 := List.append_eq_nil.mp h1.2
        exact ⟨[], by rw [h2.1]; rfl⟩
  | cons c t ih =>
      intro n
      simp only [hasSubstr, Bool.or_eq_true]
      rw [isPre_iff, ih n]
      constructor
      · intro h
        rcases h with ⟨post, hpost⟩ | ⟨pre, post, hpost⟩
        · exact ⟨[], post, by simpa using hpost⟩
        · exact ⟨c :: pre, post, by rw [hpost]; rfl⟩
      · intro ⟨pre, post, hpost⟩
        cases pre with
        | nil =>
            left
            exact ⟨post, by simpa using hpost⟩
        | cons c2 pre2 =>
            right
            rw [List.cons_append, List.cons_append] at hpost
            injection hpost with h1 h2
            exact ⟨pre2, post, h2⟩

theorem strContains_iff (key needle : String) :
    strContains key needle = true
      ↔ ∃ pre post, key.data = pre ++ needle.data ++ post :=
  hasSubstr_iff key.data needle.data

theorem append_cons_eq_of_not_mem {c : Char} :
    ∀ {l₁ l₂ r₁ r₂ : List Char}, l₁ ++ c :: r₁ = l₂ ++ c :: r₂ →
      c ∉ l₁ → c ∉ l₂ → l₁ = l₂ ∧ r₁ = r₂ := by
  intro l₁
  induction l₁ with
  | nil =>
      intro l₂ r₁ r₂ h hc1 hc2
      cases l₂ with
      | nil =>
          simp only [List.nil_append] at h
          injection h with _ h2
          exact ⟨rfl, h2⟩
      | cons d l₂t =>
          simp only [List.nil_append, List.cons_append] at h
          injection h with h1 _
          exact absurd (h1 ▸ List.mem_cons_self d l₂t) hc2
  | cons a l₁t ih =>
      intro l₂ r₁ r₂ h hc1 hc2
      cases l₂ with
      | nil =>
          simp only [List.cons_append, List.nil_append] at h
          injection h with h1 _
          exact absurd (h1.symm ▸ List.mem_cons_self a l₁t) hc1
      | cons d l₂t =>
          simp only [List.cons_append] at h
          injection h with h1 h2
          have hrec := ih h2 (fun hm => hc1 (List.mem_cons_of_mem a hm))
            (fun hm => hc2 (List.mem_cons_of_mem d hm))
          exact ⟨by rw [h1, hrec.1], hrec.2⟩

theorem foldl_cacheDel {V : Type} :
    ∀ (ks : List String) (m : List (String × V)),
      List.foldl cacheDel m ks
        = m.filter (fun kv => !(ks.contains kv.1)) := by
  intro ks
  induction ks with
  | nil =>
      intro m
      simp [List.filter_eq_self]
  | cons k kt ih =>
      intro m
      simp only [List.foldl_cons]
      rw [ih (cacheDel m k)]
      unfold cacheDel
      rw [List.filter_filter]
      apply List.filter_congr
      intro kv _
      by_cases hk : kv.1 = k
      · simp [hk]
      · by_cases hkt : kt.contains kv.1 = true
        · simp [hk, hkt]
        · simp at hkt
          simp [hk, hkt]

theorem clearWalletCache_eq_filter {V : Type} (addr : String)
    (m : List (String × V)) :
    clearWalletCache addr m
      = m.filter (fun kv => !(strContains kv.1 addr)) := by
  unfold clearWalletCache
  rw [foldl_cacheDel]
  apply List.filter_congr
  intro kv hkv
  have hcontains : ((m.map (fun kv => kv.1)).filter
      (fun k => strContains k addr)).contains kv.1
      = strContains kv.1 addr := by
    by_cases hc : strContains kv.1 addr = true
    · rw [hc]
      rw [List.contains, List.elem_iff, List.mem_filter]
      exact ⟨List.mem_map_of_mem _ hkv, hc⟩
    · simp only [Bool.not_eq_true] at hc
      rw [hc]
      rw [List.contains]
      cases helem : List.elem kv.1 ((m.map (fun kv => kv.1)).filter
          (fun k => strContains k addr)) with
      | false => rfl
      | true =>
          have hm := List.elem_iff.mp helem
          rw [List.mem_filter, hc] at hm
          exact absurd hm.2 (by simp)
  rw [hcontains]

theorem hexDigit_ne_x {c : Char} (h : isHexDigit c = true) : c ≠ 'x' := by
  intro hx
  subst hx
  exact absurd h (by decide)

theorem digit_ne_x {c : Char} (h : c.isDigit = true) : c ≠ 'x' := by
  intro hx
  subst hx
  exact absurd h (by decide)

theorem validWalletAddr_data {a : String} (h : validWalletAddr a) :
    a.data = '0' :: 'x' :: a.data.drop 2 := by
  have := List.take_append_drop 2 a.data
  rw [h.1] at this
  exact this.symm

theorem validWalletAddr_x_count {a : String} (h : validWalletAddr a) :
    (a.data).count 'x' = 1 := by
  rw [validWalletAddr_data h]
  have hdrop : ('x' : Char) ∉ a.data.drop 2 := by
    intro hm
    exact absurd rfl (hexDigit_ne_x (h.2.2 'x' hm))
  rw [List.count_cons, List.count_cons]
  rw [List.count_eq_zero.mpr hdrop]
  simp

theorem validWalletAddr_length {a : String} (h : validWalletAddr a) :
    a.data.length = 42 := by
  have hsplit := (List.take_append_drop 2 a.data).symm
  rw [h.1] at hsplit
  rw [hsplit, List.length_append, h.2.1]
  rfl

/-- The decomposition of a cache key built from a valid address and a
digit chain id, with `'x'` occurring nowhere outside the address's
`0x` marker. -/
theorem mkCacheKey_data (addr cid : String) :
    (mkCacheKey addr cid).data
      = "wallet_tokens_".data ++ addr.data ++ '_' :: cid.data := by
  unfold mkCacheKey
  rw [String.data_append, String.data_append, String.data_append]
  simp only [List.append_assoc]
  rfl

theorem mkCacheKey_foreign_addr_not_contained {addr a2 cid : String}
    (haddr : validWalletAddr addr) (ha2 : validWalletAddr a2)
    (hne : addr ≠ a2) (hcid : ∀ ch ∈ cid.data, ch.isDigit = true) :
    strContains (mkCacheKey addr cid) a2 = false := by
  cases hcontain : strContains (mkCacheKey addr cid) a2 with
  | false => rfl
  | true =>
      exfalso
      obtain ⟨pre, post, hkey⟩ := (strContains_iff _ _).mp hcontain
      rw [mkCacheKey_data] at hkey
      set P := "wallet_tokens_".data with hP
      have haddrdata := validWalletAddr_data haddr
      have ha2data := validWalletAddr_data ha2
      have hxh : ('x' : Char) ∉ addr.data.drop 2 := fun hm =>
        absurd rfl (hexDigit_ne_x (haddr.2.2 'x' hm))
      have hxh2 : ('x' : Char) ∉ a2.data.drop 2 := fun hm =>
        absurd rfl (hexDigit_ne_x (ha2.2.2 'x' hm))
      have hxcid : ('x' : Char) ∉ cid.data := fun hm =>
        absurd rfl (digit_ne_x (hcid 'x' hm))
      have hxP : ('x' : Char) ∉ P := by rw [hP]; decide
      have hPc : List.count 'x' P = 0 := List.count_eq_zero.mpr hxP
      have hcc : List.count 'x' ('_' :: cid.data) = 0 := by
        rw [List.count_eq_zero]
        intro hm
        rcases List.mem_cons.mp hm with hm | hm
        · exact absurd hm (by decide)
        · exact hxcid hm
      have hkey1 : P ++ addr.data ++ '_' :: cid.data
          = (P ++ ['0']) ++ 'x' :: (addr.data.drop 2 ++ '_' :: cid.data) := by
        rw [haddrdata]
        simp
      have hkey2 : pre ++ a2.data ++ post
          = (pre ++ ['0']) ++ 'x' :: (a2.data.drop 2 ++ post) := by
        rw [ha2data]
        simp
      have hcount : (pre ++ a2.data ++ post).count 'x'
          = (P ++ addr.data ++ '_' :: cid.data).count 'x' := by rw [hkey]
      have hcount1 : (P ++ addr.data ++ '_' :: cid.data).count 'x' = 1 := by
        rw [List.count_append, List.count_append,
          validWalletAddr_x_count haddr, hPc, hcc]
      have hcount2 : (pre ++ a2.data ++ post).count 'x'
          = pre.count 'x' + 1 + post.count 'x' := by
        rw [List.count_append, List.count_append,
          validWalletAddr_x_count ha2]
      have hxpre : ('x' : Char) ∉ pre := by
        rw [hcount1, hcount2] at hcount
        rw [← List.count_eq_zero (a := 'x') (l := pre)]
        omega
      have heq2 : (P ++ ['0']) ++ 'x' :: (addr.data.drop 2 ++ '_' :: cid.data)
          = (pre ++ ['0']) ++ 'x' :: (a2.data.drop 2 ++ post) :=
        hkey1.symm.trans (hkey.trans hkey2)
      have halign := append_cons_eq_of_not_mem heq2
        (by intro hm
            rcases List.mem_append.mp hm with hm | hm
            · exact hxP hm
            · exact absurd hm (by decide))
        (by intro hm
            rcases List.mem_append.mp hm with hm | hm
            · exact hxpre hm
            · exact absurd hm (by decide))
      have hPpre : P = pre := List.append_cancel_right halign.1
      have hkey3 : P ++ (addr.data ++ '_' :: cid.data)
          = P ++ (a2.data ++ post) := by
        have hk := hkey
        rw [← hPpre] at hk
        rw [List.append_assoc] at hk
        rw [List.append_assoc] at hk
        exact hk
      have htail := List.append_cancel_left hkey3
      have hlen : addr.data.length = a2.data.length := by
        rw [validWalletAddr_length haddr, validWalletAddr_length ha2]
      have hdata := (List.append_inj htail hlen).1
      exact hne (by
        cases addr with
        | mk d1 =>
            cases a2 with
            | mk d2 => exact congrArg String.mk hdata)

theorem strContains_extend {b a : String} (h : strContains b a = true)
    (cid : String) : strContains (mkCacheKey b cid) a = true := by
  obtain ⟨pre, post, hb⟩ := (strContains_iff _ _).mp h
  refine (strContains_iff _ _).mpr
    ⟨"wallet_tokens_".data ++ pre, post ++ '_' :: cid.data, ?_⟩
  rw [mkCacheKey_data, hb]
  simp

/-- Claim C10:  `clearWalletCache(walletAddress)` deletes exactly the cache
entries whose key contains the address as a case-sensitive substring and
leaves every other entry unchanged (lines 392-401 filter the keys with
`key.includes(walletAddress)` and delete each); the cache key embeds the
address exactly as passed (line 51); consequently a differently-spelled
(e.g. differently-cased) valid wallet address is contained in no key of
the original spelling, so invalidating with it removes nothing; and a
string contained in another wallet's address is contained in that
wallet's keys, so invalidating with it removes that other wallet's
entries. -/
theorem clearWalletCache_spec :
    (∀ (V : Type) (m : List (String × V)) (addr : String),
      clearWalletCache addr m
        = m.filter (fun kv => !(strContains kv.1 addr)))
    ∧ (∀ addr cid : String, mkCacheKey addr cid
        = "wallet_tokens_" ++ addr ++ "_" ++ cid)
    ∧ (∀ (V : Type) (m : List (String × V)) (a2 : String),
      validWalletAddr a2 →
      (∀ kv ∈ m, ∃ a cid, kv.1 = mkCacheKey a cid ∧ validWalletAddr a
        ∧ (∀ ch ∈ cid.data, ch.isDigit = true) ∧ a ≠ a2) →
      clearWalletCache a2 m = m)
    ∧ (∀ (V : Type) (v : V) (m : List (String × V)) (a b cid : String),
      strContains b a = true → (mkCacheKey b cid, v) ∈ m →
      (mkCacheKey b cid, v) ∉ clearWalletCache a m) := by
  refine ⟨fun V m addr => clearWalletCache_eq_filter addr m,
    fun addr cid => rfl, ?_, ?_⟩
  · intro V m a2 ha2 hkeys
    rw [clearWalletCache_eq_filter]
    apply List.filter_eq_self.mpr
    intro kv hkv
    obtain ⟨a, cid, hk, ha, hcid, hne⟩ := hkeys kv hkv
    rw [hk, mkCacheKey_foreign_addr_not_contained ha ha2 hne hcid]
    rfl
  · intro V v m a b cid hsub hmem hmem2
    rw [clearWalletCache_eq_filter] at hmem2
    rw [List.mem_filter] at hmem2
    have := hmem2.2
    rw [strContains_extend hsub cid] at this
    exact absurd this (by simp)

theorem addrA_valid : validWalletAddr addrA := by
  unfold validWalletAddr
  refine ⟨by decide, by decide, by decide⟩

theorem addrALower_valid : validWalletAddr addrALower := by
  unfold validWalletAddr
  refine ⟨by decide, by decide, by decide⟩

/-- Witness for C10 at concrete data: the mixed-case wallet's entry
survives invalidation with the lower-case spelling, and invalidating
with a substring of the address removes the entry. -/
theorem clearWalletCache_spec_witness :
    validWalletAddr addrA ∧ validWalletAddr addrALower ∧ addrA ≠ addrALower
      ∧ clearWalletCache addrALower [(mkCacheKey addrA "1", (42 : Nat))]
        = [(mkCacheKey addrA "1", (42 : Nat))]
      ∧ strContains addrA "0xA" = true
      ∧ (mkCacheKey addrA "1", (42 : Nat))
        ∉ clearWalletCache "0xA" [(mkCacheKey addrA "1", (42 : Nat))] :=
  ⟨addrA_valid, addrALower_valid, by decide,
   clearWalletCache_spec.2.2.1 Nat [(mkCacheKey addrA "1", 42)] addrALower
     addrALower_valid
     (fun kv hkv => ⟨addrA, "1", by
        rcases List.mem_singleton.mp hkv with rfl
        exact ⟨rfl, addrA_valid, by decide, by decide⟩⟩),
   by decide,
   clearWalletCache_spec.2.2.2 Nat 42 [(mkCacheKey addrA "1", 42)] "0xA"
     addrA "1" (by decide) (List.mem_singleton_self _)⟩

end Blockpal
